/-
  Spec2Proof.lean — a shallow embedding of the cline-acp bridge
  (src/cline/conversion.ts and src/cline/cline-acp-agent.ts) in Lean 4,
  with theorems settling the frozen claims about the
  snapshot-to-incremental-notification engine.

  Modelling conventions:
  * JavaScript strings are Lean String.  An absent optional string field is ""
    when the source only ever reads it through truthiness or String(x || "")
    (type/ask/say/reasoning), and Option String where the source distinguishes
    undefined from "" (msg.text, compared with === against the user input).
  * Message timestamps are natural numbers; ts = 0 encodes an absent or zero
    timestamp, because the source guards every use of a timestamp with JS
    truthiness (msg.ts && ...), under which 0 and undefined act identically.
  * JSON.parse is implemented as an executable recursive-descent function
    parseJson over the source string, returning a JVal tree (none on failure).
  * JS numbers are modelled as Rat (exact rationals); the claims under study
    are about counting and when fields are folded, not float rounding.
  * JS Sets of timestamps are List Nat used only through contains/insert/erase.
  * String() coercion of non-primitive JSON values (jToDisplayString) is
    approximated, and fields the TypeScript types declare as string
    (tool/path/content/command/diff) are read as string-or-absent; every
    theorem below quantifies only over string-typed or absent such fields,
    matching the declared types of the source.
-/
import Mathlib

namespace ClineAcp

/-- A JSON value as produced by JSON.parse. Object fields appear in source
order; JSON.parse deduplicates keys keeping the last one, which jGet mirrors
by searching the reversed field list. -/
inductive JVal where
  | null : JVal
  | bool (b : Bool) : JVal
  | num (q : Rat) : JVal
  | str (s : String) : JVal
  | arr (xs : List JVal) : JVal
  | obj (fields : List (String × JVal)) : JVal

/-
  Executable string primitives.  The Lean standard library implements
  toLower/trim/splitOn/startsWith/toString through externs or well-founded
  recursion that the kernel cannot reduce, so the JS string operations the
  source uses are given here as structurally recursive functions over the
  character list of a String; each is a faithful rendering of the JS
  counterpart on the ASCII data the backend exchanges.
-/

/-- JS String.prototype.toLowerCase for one character (ASCII range). -/
def lowerChar (c : Char) : Char :=
  if 'A' ≤ c && c ≤ 'Z' then Char.ofNat (c.toNat + 32) else c

/-- JS String.prototype.toLowerCase. -/
def lowerStr (s : String) : String :=
  String.mk (s.data.map lowerChar)

/-- List version of the pattern test of JS String.prototype.startsWith. -/
def listLeads : List Char → List Char → Bool
  | [], _ => true
  | _ :: _, [] => false
  | a :: as, b :: bs => a == b && listLeads as bs

/-- JS String.prototype.startsWith. -/
def sStartsWith (s pat : String) : Bool :=
  listLeads pat.data s.data

/-- List version of the substring test of JS String.prototype.includes. -/
def listHasSub (pat : List Char) : List Char → Bool
  | [] => pat.isEmpty
  | c :: rest => listLeads pat (c :: rest) || listHasSub pat rest

/-- Whitespace trimmed by JS String.prototype.trim. -/
def isTrimWs (c : Char) : Bool :=
  c = ' ' || c = '\t' || c = '\n' || c = '\r' || c = Char.ofNat 11 || c = Char.ofNat 12

/-- JS String.prototype.trim. -/
def sTrim (s : String) : String :=
  String.mk (((s.data.dropWhile isTrimWs).reverse.dropWhile isTrimWs).reverse)

/-- List version of JS String.prototype.split with a one-character separator. -/
def splitOnCharList (sep : Char) : List Char → List (List Char)
  | [] => [[]]
  | a :: as =>
    match splitOnCharList sep as with
    | [] => [[a]]
    | h :: t => if a = sep then [] :: h :: t else (a :: h) :: t

/-- JS String.prototype.split with a one-character separator. -/
def splitOnChar (sep : Char) (s : String) : List String :=
  (splitOnCharList sep s.data).map String.mk

/-- JS String.prototype.slice(n) / drop of a leading prefix (ASCII). -/
def sDrop (s : String) (n : Nat) : String :=
  String.mk (s.data.drop n)

/-- Decimal rendering of a natural number (JS String(ts) for integers). -/
def natToChars : Nat → Nat → List Char
  | 0, _ => []
  | fuel + 1, n =>
    if n < 10 then [Char.ofNat (48 + n)]
    else natToChars fuel (n / 10) ++ [Char.ofNat (48 + n % 10)]

/-- Decimal rendering of a natural number as a string. -/
def natToString (n : Nat) : String :=
  String.mk (natToChars (n + 1) n)

/-- Whitespace characters skipped by the JSON reader. -/
def isWsChar (c : Char) : Bool :=
  c = ' ' || c = '\t' || c = '\n' || c = '\r'

/-- Drop leading JSON whitespace. -/
def skipWs (cs : List Char) : List Char :=
  cs.dropWhile isWsChar

/-- Value of one hexadecimal digit. -/
def hexVal (c : Char) : Option Nat :=
  if c.isDigit then some (c.toNat - 48)
  else if 'a' ≤ c && c ≤ 'f' then some (c.toNat - 87)
  else if 'A' ≤ c && c ≤ 'F' then some (c.toNat - 55)
  else none

/-- Read a JSON string body (the opening quote already consumed); fuelled so
that all recursion in the reader is structural. -/
def parseStrAux : Nat → List Char → String → Option (String × List Char)
  | 0, _, _ => none
  | _ + 1, [], _ => none
  | fuel + 1, c :: rest, acc =>
    if c = '"' then some (acc, rest)
    else if c = '\\' then
      match rest with
      | [] => none
      | e :: rest2 =>
        if e = '"' then parseStrAux fuel rest2 (acc.push '"')
        else if e = '\\' then parseStrAux fuel rest2 (acc.push '\\')
        else if e = '/' then parseStrAux fuel rest2 (acc.push '/')
        else if e = 'n' then parseStrAux fuel rest2 (acc.push '\n')
        else if e = 't' then parseStrAux fuel rest2 (acc.push '\t')
        else if e = 'r' then parseStrAux fuel rest2 (acc.push '\r')
        else if e = 'b' then parseStrAux fuel rest2 (acc.push (Char.ofNat 8))
        else if e = 'f' then parseStrAux fuel rest2 (acc.push (Char.ofNat 12))
        else if e = 'u' then
          match rest2 with
          | a :: b :: c2 :: d :: rest3 =>
            match hexVal a, hexVal b, hexVal c2, hexVal d with
            | some ha, some hb, some hc, some hd =>
              parseStrAux fuel rest3
                (acc.push (Char.ofNat (((ha * 16 + hb) * 16 + hc) * 16 + hd)))
            | _, _, _, _ => none
          | _ => none
        else none
    else parseStrAux fuel rest (acc.push c)

/-- Digits to a natural number. -/
def digitsToNat (ds : List Char) : Nat :=
  ds.foldl (fun n c => n * 10 + (c.toNat - 48)) 0

/-- Read the exponent part of a JSON number (after the e/E). -/
def parseExp (cs : List Char) : Option Int × List Char :=
  let p : Int × List Char :=
    match cs with
    | '+' :: r => (1, r)
    | '-' :: r => (-1, r)
    | _ => (1, cs)
  let ds := p.2.takeWhile Char.isDigit
  if ds.isEmpty then (none, cs)
  else (some (p.1 * (digitsToNat ds : Int)), p.2.drop ds.length)

/-- Read a JSON number as an exact rational. -/
def parseNum (cs : List Char) : Option (Rat × List Char) :=
  let pSign : Bool × List Char :=
    match cs with
    | '-' :: r => (true, r)
    | _ => (false, cs)
  let neg := pSign.1
  let cs1 := pSign.2
  let ds := cs1.takeWhile Char.isDigit
  if ds.isEmpty then none
  else
    let rest1 := cs1.drop ds.length
    let pFrac : Option (List Char) × List Char :=
      match rest1 with
      | '.' :: r =>
        let fs := r.takeWhile Char.isDigit
        (some fs, r.drop fs.length)
      | _ => (none, rest1)
    match pFrac.1 with
    | some [] => none
    | _ =>
      let fracDs := pFrac.1.getD []
      let rest2 := pFrac.2
      let mant : Rat :=
        if fracDs.isEmpty then (digitsToNat ds : Rat)
        else (digitsToNat (ds ++ fracDs) : Rat) / ((10 : Rat) ^ fracDs.length)
      let pExp : Option Int × List Char :=
        match rest2 with
        | 'e' :: r => parseExp r
        | 'E' :: r => parseExp r
        | _ => (some 0, rest2)
      match pExp.1 with
      | none => none
      | some e =>
        let scaled : Rat :=
          if e = 0 then mant
          else if 0 ≤ e then mant * (10 : Rat) ^ e.toNat
          else mant / (10 : Rat) ^ (-e).toNat
        some ((if neg then -scaled else scaled), pExp.2)

mutual

/-- Fuelled JSON value reader. -/
def parseVal : Nat → List Char → Option (JVal × List Char)
  | 0, _ => none
  | fuel + 1, cs =>
    match skipWs cs with
    | 'n' :: 'u' :: 'l' :: 'l' :: rest => some (.null, rest)
    | 't' :: 'r' :: 'u' :: 'e' :: rest => some (.bool true, rest)
    | 'f' :: 'a' :: 'l' :: 's' :: 'e' :: rest => some (.bool false, rest)
    | '"' :: rest =>
      match parseStrAux (rest.length + 1) rest "" with
      | some (s, r) => some (.str s, r)
      | none => none
    | '[' :: rest =>
      match skipWs rest with
      | ']' :: r2 => some (.arr [], r2)
      | _ =>
        match parseElems fuel rest with
        | some (xs, r2) => some (.arr xs, r2)
        | none => none
    | '\x7b' :: rest =>
      match skipWs rest with
      | '\x7d' :: r2 => some (.obj [], r2)
      | _ =>
        match parseFields fuel rest with
        | some (fs, r2) => some (.obj fs, r2)
        | none => none
    | rest =>
      match parseNum rest with
      | some (q, r) => some (.num q, r)
      | none => none

/-- Fuelled reader for the elements of a JSON array (at least one element). -/
def parseElems : Nat → List Char → Option (List JVal × List Char)
  | 0, _ => none
  | fuel + 1, cs =>
    match parseVal fuel cs with
    | none => none
    | some (v, rest) =>
      match skipWs rest with
      | ',' :: r2 =>
        match parseElems fuel r2 with
        | some (xs, r3) => some (v :: xs, r3)
        | none => none
      | ']' :: r2 => some ([v], r2)
      | _ => none

/-- Fuelled reader for the fields of a JSON object (at least one field). -/
def parseFields : Nat → List Char → Option (List (String × JVal) × List Char)
  | 0, _ => none
  | fuel + 1, cs =>
    match skipWs cs with
    | '"' :: rest =>
      match parseStrAux (rest.length + 1) rest "" with
      | none => none
      | some (k, r1) =>
        match skipWs r1 with
        | ':' :: r2 =>
          match parseVal fuel r2 with
          | none => none
          | some (v, r3) =>
            match skipWs r3 with
            | ',' :: r4 =>
              match parseFields fuel r4 with
              | some (fs, r5) => some ((k, v) :: fs, r5)
              | none => none
            | '\x7d' :: r4 => some ([(k, v)], r4)
            | _ => none
        | _ => none
    | _ => none

end

/-- JSON.parse: parse a whole string to a JVal; none models a thrown
SyntaxError.  The fuel bound is generous: the reader consumes fuel at most
twice per input character. -/
def parseJson (s : String) : Option JVal :=
  match parseVal (2 * s.length + 8) s.toList with
  | some (v, rest) => if skipWs rest = [] then some v else none
  | none => none

/-- Field lookup on a JSON object (undefined on non-objects); JSON.parse keeps
the last of duplicate keys, hence the reverse. -/
def jGet (j : JVal) (k : String) : Option JVal :=
  match j with
  | .obj fs => (fs.reverse.find? (fun p => p.1 == k)).map (fun p => p.2)
  | _ => none

/-- JavaScript truthiness of a JSON value. -/
def jTruthy : JVal → Bool
  | .null => false
  | .bool b => b
  | .num q => q != 0
  | .str s => s != ""
  | .arr _ => true
  | .obj _ => true

/-- Approximation of JavaScript String() coercion, used only for the template
literals building tool titles; every claim pins the coerced fields to strings. -/
def jToDisplayString : JVal → String
  | .str s => s
  | .num q => toString q
  | .bool b => if b then "true" else "false"
  | .null => "null"
  | .arr _ => ""
  | .obj _ => "[object Object]"

/-- JavaScript String.prototype.includes. -/
def strIncludes (s pat : String) : Bool :=
  listHasSub pat.data s.data

/-- One backend message as extracted from the state JSON
(ClineMessage in src/cline/types.ts).  The streaming field is the source's
partial flag. -/
structure ClineMessage where
  ts : Nat
  type : String
  ask : String
  say : String
  text : Option String
  reasoning : String
  streaming : Bool
  planModeResponse : Option String
  askQuestion : Option String
deriving DecidableEq, Repr

/-- One state update as consumed by the processing loop, represented by the
three values the loop extracts from the state JSON: the ordered message
history, the primary workspace root, and the raw state.mode value. -/
structure Snapshot where
  messages : List ClineMessage
  root : Option String
  modeRaw : Option String
deriving DecidableEq, Repr

/-- Per-session state (ClineSession fields used by the engine). -/
structure Session where
  mode : String
  cancelled : Bool
  isTaskCreated : Bool
  totalCost : Rat
  totalTokensIn : Rat
  totalTokensOut : Rat
  totalCacheWrites : Rat
  totalCacheReads : Rat
deriving DecidableEq, Repr

/-- Cost data extracted from an api_req_started message (ClineCostInfo). -/
structure ClineCostInfo where
  tokensIn : Rat
  tokensOut : Rat
  cacheWrites : Rat
  cacheReads : Rat
  cost : Rat
deriving DecidableEq, Repr

/-- Parsed tool descriptor (ClineToolInfo). -/
structure ClineToolInfo where
  type : String
  title : String
  input : JVal
  path : Option String
  line : Option Rat
  content : Option String
  diff : Option String

/-- One location attached to a tool-call notification. -/
structure ToolLocation where
  path : String
  line : Option Rat

/-- One content entry of a tool-call notification (ToolCallContent). -/
inductive ToolContent where
  | diffContent (path : String) (newText : String) : ToolContent
  | textContent (text : String) : ToolContent

/-- One plan entry as parsed from a task_progress checklist. -/
structure ClinePlanEntry where
  content : String
  status : String
deriving DecidableEq, Repr

/-- One plan entry as emitted in a plan notification (with priority). -/
structure PlanEntry where
  content : String
  status : String
  priority : String
deriving DecidableEq, Repr

/-- Outbound session notification (the update payloads the engine produces;
the sessionId accompanying every update is constant per loop and omitted). -/
inductive Notification where
  | agentMessageChunk (text : String) : Notification
  | agentThoughtChunk (text : String) : Notification
  | toolCall (toolCallId : String) (status : String) (title : String)
      (kind : String) (rawInput : JVal) (content : List ToolContent)
      (locations : List ToolLocation) : Notification
  | toolCallUpdate (toolCallId : String) (status : String) : Notification
  | planUpdate (entries : List PlanEntry) : Notification
  | currentModeUpdate (modeId : String) : Notification

/-- A blocking permission request issued to the ACP client (the fixed
three-option set allow_always/allow/reject is constant and omitted). -/
structure PermissionRequest where
  toolCallId : String
  title : String
  rawInput : JVal

/-- The ACP client's answer to a permission request. -/
structure PermissionOutcome where
  outcome : String
  optionId : String
deriving DecidableEq, Repr

/-- A response relayed to the backend (Task.askResponse responseType). -/
inductive BackendResponse where
  | yesButtonClicked : BackendResponse
  | noButtonClicked : BackendResponse
deriving DecidableEq, Repr

/-- How one snapshot iteration leaves the loop. -/
inductive StepResult where
  | goOn : StepResult
  | stopCancel : StepResult
  | stopWait : StepResult
  | stopComplete : StepResult
deriving DecidableEq, Repr

/-- Everything one snapshot iteration emits. -/
structure StepOutput where
  notifs : List Notification
  permissions : List PermissionRequest
  responses : List BackendResponse
  result : StepResult

/-- Insert a timestamp into a JS-Set-modelling list. -/
def insertTs (t : Nat) (l : List Nat) : List Nat :=
  if l.contains t then l else t :: l

/-- Insert a timestamp only when truthy (the `if (msg.ts) set.add(msg.ts)`
pattern). -/
def insertIfTs (t : Nat) (l : List Nat) : List Nat :=
  if t != 0 then insertTs t l else l

/-- Pair every list element with its index (messages[i] in the loop). -/
def withIdx : Nat → List α → List (Nat × α)
  | _, [] => []
  | n, a :: as => (n, a) :: withIdx (n + 1) as

/-- Extract the text content from a ClineMessage (extractTextFromMessage):
prefer planModeResponse.response, then askQuestion.question, then a
response/question string carried inside a JSON-encoded text field, then the
raw text. -/
def extractTextFromMessage (m : ClineMessage) : String :=
  match m.planModeResponse with
  | some r =>
    if r != "" then r else extractTextFallback m
  | none => extractTextFallback m
where
  /-- Continuation after the planModeResponse check. -/
  extractTextFallback (m : ClineMessage) : String :=
    match m.askQuestion with
    | some q => if q != "" then q else extractTextFromText m
    | none => extractTextFromText m
  /-- Continuation probing the raw text field for a JSON response/question. -/
  extractTextFromText (m : ClineMessage) : String :=
    match m.text with
    | some t =>
      if t != "" then
        match parseJson t with
        | some (.obj fs) =>
          match jGet (.obj fs) "response" with
          | some (.str s) => s
          | _ =>
            match jGet (.obj fs) "question" with
            | some (.str s) => s
            | _ => t
        | _ => t
      else ""
    | none => ""

/-- Check whether text looks like raw JSON tool data that should be filtered
out (looksLikeToolJson). -/
def looksLikeToolJson (text : String) : Bool :=
  let trimmed := sTrim text
  if !sStartsWith trimmed "\x7b" then false
  else
    match parseJson trimmed with
    | some (.obj fs) =>
      if (jGet (.obj fs) "tool").isSome then true
      else if (jGet (.obj fs) "path").isSome
          && ((jGet (.obj fs) "content").isSome
              || (jGet (.obj fs) "operationIsLocatedInWorkspace").isSome) then true
      else false
    | _ => false

/-- Read a string-typed payload field (none when absent or non-string). -/
def strField (data : JVal) (k : String) : Option String :=
  match jGet data k with
  | some (.str s) => some s
  | _ => none

/-- Read a number-typed payload field (the `typeof x === "number"` probes). -/
def numField (data : JVal) (k : String) : Option Rat :=
  match jGet data k with
  | some (.num q) => some q
  | _ => none

/-- JS truthiness of an optional string. -/
def optNonempty : Option String → Bool
  | some s => s != ""
  | none => false

/-- Does the secondary content field look like an absolute path? -/
def contentIsAbsPath : Option String → Bool
  | some c => sStartsWith c "/"
  | none => false

/-- workspaceRoot.split("/").pop(). -/
def jsBasename (w : String) : String :=
  (splitOnChar '/' w).getLastD ""

/-- Resolve a possibly-relative primary path against the workspace root
(the else-if branch of parseToolInfo's path resolution). -/
def resolveRelPath (pathField : Option String) (root : Option String) : Option String :=
  match pathField with
  | none => none
  | some p =>
    match root with
    | none => some p
    | some w =>
      if p != "" && w != "" && !sStartsWith p "/" then
        if p == jsBasename w then some w else some (w ++ "/" ++ p)
      else some p

/-- The descriptor returned when the payload fails to parse. -/
def unknownToolInfo : ClineToolInfo :=
  { type := "unknown", title := "Unknown Tool", input := .obj [],
    path := none, line := none, content := none, diff := none }

/-- Core of parseToolInfo, over the already-parsed payload. -/
def parseToolInfoData (data : JVal) (workspaceRoot : Option String) : ClineToolInfo :=
  let toolType :=
    match jGet data "tool" with
    | some v => if jTruthy v then jToDisplayString v else "unknown"
    | none => "unknown"
  let pathF := strField data "path"
  let contentF := strField data "content"
  let commandF := strField data "command"
  let title :=
    if optNonempty pathF then toolType ++ " " ++ pathF.getD ""
    else if optNonempty commandF then toolType ++ ": " ++ commandF.getD ""
    else toolType
  let filePath :=
    if contentIsAbsPath contentF then contentF
    else resolveRelPath pathF workspaceRoot
  let line :=
    match numField data "line" with
    | some q => some q
    | none => numField data "startLine"
  let contentOut :=
    match contentF with
    | some c => if !sStartsWith c "/" then some c else none
    | none => none
  { type := toolType, title := title, input := data, path := filePath,
    line := line, content := contentOut, diff := strField data "diff" }

/-- The string handed to JSON.parse for a message payload
(msg.text || "\x7b\x7d"). -/
def rawPayloadText (m : ClineMessage) : String :=
  match m.text with
  | some t => if t != "" then t else "\x7b\x7d"
  | none => "\x7b\x7d"

/-- Parse tool info from a Cline message (parseToolInfo); a parse failure
degrades to the unknown descriptor. -/
def parseToolInfo (m : ClineMessage) (workspaceRoot : Option String) : ClineToolInfo :=
  match parseJson (rawPayloadText m) with
  | none => unknownToolInfo
  | some data => parseToolInfoData data workspaceRoot

/-- Map Cline tool types to ACP ToolKind (mapToolKind). -/
def mapToolKind (t : String) : String :=
  if t == "read_file" then "read"
  else if t == "write_to_file" then "edit"
  else if t == "replace_in_file" then "edit"
  else if t == "execute_command" then "execute"
  else if t == "search_files" then "search"
  else if t == "list_files" then "search"
  else if t == "browser_action" then "fetch"
  else if t == "ask_followup_question" then "other"
  else "other"

/-- Build the ToolCallContent array from parsed tool info
(buildToolCallContent). -/
def buildToolCallContent (ti : ClineToolInfo) : List ToolContent :=
  (match ti.diff, ti.path with
   | some d, some p => if d != "" && p != "" then [.diffContent p d] else []
   | _, _ => []) ++
  (match ti.content with
   | some c => if c != "" then [.textContent c] else []
   | none => [])

/-- The locations list of a tool-call notification (`if (toolInfo.path)`). -/
def locationsOf (ti : ClineToolInfo) : List ToolLocation :=
  match ti.path with
  | some p => if p != "" then [⟨p, ti.line⟩] else []
  | none => []

/-- Convert a Cline tool ask to a pending ACP tool call
(clineToolAskToAcpToolCall). -/
def clineToolAskToAcpToolCall (m : ClineMessage) (root : Option String) : Notification :=
  let ti := parseToolInfo m root
  .toolCall (natToString m.ts) "pending" ti.title (mapToolKind ti.type) ti.input
    (buildToolCallContent ti) (locationsOf ti)

/-- Convert a Cline command ask (raw command text) to a pending ACP tool call
(clineCommandAskToAcpToolCall). -/
def clineCommandAskToAcpToolCall (m : ClineMessage) : Notification :=
  let command :=
    match m.text with
    | some t => if t != "" then t else "command"
    | none => "command"
  .toolCall (natToString m.ts) "pending" command "execute"
    (.obj [("command", .str command)]) [] []

/-- Convert a complete SAY TOOL message to a completed ACP tool call
(clineSayToolToAcpToolCall); none when the payload is not a known tool. -/
def clineSayToolToAcpToolCall (m : ClineMessage) (root : Option String) : Option Notification :=
  let ti := parseToolInfo m root
  if ti.type == "unknown" then none
  else
    some (.toolCall (natToString m.ts) "completed" ti.title (mapToolKind ti.type)
      ti.input (buildToolCallContent ti) (locationsOf ti))

/-- Convert a partial SAY TOOL message to an in_progress ACP tool call with
empty locations (clineSayToolToAcpToolCallInProgress). -/
def clineSayToolToAcpToolCallInProgress (m : ClineMessage) (root : Option String) :
    Option Notification :=
  if lowerStr m.say != "tool" then none
  else
    let ti := parseToolInfo m root
    if ti.type == "unknown" then none
    else
      some (.toolCall (natToString m.ts) "in_progress" ti.title (mapToolKind ti.type)
        ti.input [] [])

/-- Create a tool_call_update notification (createToolCallUpdate). -/
def createToolCallUpdate (toolCallId : String) (status : String) : Notification :=
  .toolCallUpdate toolCallId status

/-- Convert one complete Cline message at its index to at most one ACP
notification (clineMessageToAcpNotification). -/
def clineMessageToAcpNotification (m : ClineMessage) (messageIndex : Nat)
    (root : Option String) : Option Notification :=
  let msgType := lowerStr m.type
  let sayType := lowerStr m.say
  let askType := lowerStr m.ask
  if msgType == "say" then
    if strIncludes sayType "api_req" then none
    else if sayType == "checkpoint_created" then none
    else if sayType == "user_feedback" then none
    else if sayType == "tool" then clineSayToolToAcpToolCall m root
    else if sayType == "text" && messageIndex == 0 then none
    else if sayType == "reasoning" then
      let text := if m.reasoning != "" then m.reasoning else extractTextFromMessage m
      if text != "" then
        if looksLikeToolJson text then none else some (.agentThoughtChunk text)
      else none
    else
      let text := extractTextFromMessage m
      if text != "" then
        if looksLikeToolJson text then none else some (.agentMessageChunk text)
      else none
  else if msgType == "ask" then
    if strIncludes askType "api_req" then none
    else if askType == "resume_task" || askType == "resume_completed_task" then none
    else if askType == "tool" then some (clineToolAskToAcpToolCall m root)
    else if askType == "command" then some (clineCommandAskToAcpToolCall m)
    else if askType == "completion_result" then none
    else
      -- plan_mode_respond and the followup/default ask branches have
      -- identical bodies in the source: a text chunk when non-empty.
      let text := extractTextFromMessage m
      if text != "" then some (.agentMessageChunk text) else none
  else none

/-- Whitespace accepted inside a checklist line (the regex \s within a line;
newlines cannot occur because the text was split on them). -/
def isLineWs (c : Char) : Bool :=
  c = ' ' || c = '\t' || c = '\r'

/-- Match one markdown checklist line against the task_progress patterns
`[-*]\s*\[x\]\s*(.+)` (checked, x case-insensitive, tried first) and
`[-*]\s*\[\s*\]\s*(.+)` (unchecked). -/
def lineToEntry (line : String) : Option ClinePlanEntry :=
  match line.toList with
  | [] => none
  | c :: rest =>
    if c = '-' || c = '*' then
      match rest.dropWhile isLineWs with
      | '[' :: inner =>
        match inner with
        | x :: ']' :: tail =>
          if x = 'x' || x = 'X' then mkEntry "completed" tail
          else uncheckedCase inner
        | _ => uncheckedCase inner
      | _ => none
    else none
where
  /-- Capture group (.+): non-empty remainder, trimmed. -/
  mkEntry (status : String) (tail : List Char) : Option ClinePlanEntry :=
    if tail.isEmpty then none
    else some ⟨sTrim (String.mk tail), status⟩
  /-- The `\[\s*\]` unchecked alternative. -/
  uncheckedCase (inner : List Char) : Option ClinePlanEntry :=
    match inner.dropWhile isLineWs with
    | ']' :: tail => mkEntry "pending" tail
    | _ => none

/-- Parse a task_progress markdown checklist (parseTaskProgressToPlanEntries). -/
def parseTaskProgressToPlanEntries (text : String) : List ClinePlanEntry :=
  (splitOnChar '\n' text).filterMap lineToEntry

/-- Convert a task_progress message to a plan notification
(clineTaskProgressToAcpPlan); none when no entry parses. -/
def clineTaskProgressToAcpPlan (m : ClineMessage) : Option Notification :=
  let entries := parseTaskProgressToPlanEntries (m.text.getD "")
  if entries.isEmpty then none
  else some (.planUpdate (entries.map (fun e => ⟨e.content, e.status, "medium"⟩)))

/-- Latest task_progress message (getLatestTaskProgress): last message whose
say type is task_progress. -/
def getLatestTaskProgress (msgs : List ClineMessage) : Option ClineMessage :=
  msgs.reverse.find? (fun m => lowerStr m.say == "task_progress")

/-- Check whether the task is complete (isTaskComplete). -/
def isTaskComplete (msgs : List ClineMessage) : Bool :=
  match msgs.getLast? with
  | none => false
  | some lm => lowerStr lm.type == "ask" && lowerStr lm.ask == "completion_result"

/-- Check whether Cline is waiting for user input (isWaitingForUserInput);
false while the last message is still partial. -/
def isWaitingForUserInput (msgs : List ClineMessage) : Bool :=
  match msgs.getLast? with
  | none => false
  | some lm =>
    if lm.streaming then false
    else
      lowerStr lm.type == "ask"
        && (lowerStr lm.ask == "plan_mode_respond"
            || lowerStr lm.ask == "followup"
            || lowerStr lm.ask == "completion_result")

/-- Check whether approval is needed (needsApproval): the last message is a
complete ask of an approval-eligible kind.  The source compares the raw enum
values here, without lowercasing. -/
def needsApproval (msgs : List ClineMessage) : Bool :=
  match msgs.getLast? with
  | none => false
  | some lm =>
    if lm.type != "ask" then false
    else if lm.streaming then false
    else
      lm.ask == "tool" || lm.ask == "command"
        || lm.ask == "browser_action_launch" || lm.ask == "use_mcp_server"

/-- Extract cost info from an api_req_started message (extractCostInfo);
none unless the say type matches and the payload parses with a defined cost
field.  A cost of exactly 0 is present and returned. -/
def extractCostInfo (m : ClineMessage) : Option ClineCostInfo :=
  if lowerStr m.say != "api_req_started" then none
  else
    match parseJson (rawPayloadText m) with
    | none => none
    | some data =>
      match jGet data "cost" with
      | none => none
      | some _ =>
        some { tokensIn := (numField data "tokensIn").getD 0,
               tokensOut := (numField data "tokensOut").getD 0,
               cacheWrites := (numField data "cacheWrites").getD 0,
               cacheReads := (numField data "cacheReads").getD 0,
               cost := (numField data "cost").getD 0 }

/-- Fold one cost record into the session telemetry (the += block of the
cost-accumulation loop). -/
def addCost (s : Session) (ci : ClineCostInfo) : Session :=
  { s with totalCost := s.totalCost + ci.cost,
           totalTokensIn := s.totalTokensIn + ci.tokensIn,
           totalTokensOut := s.totalTokensOut + ci.tokensOut,
           totalCacheWrites := s.totalCacheWrites + ci.cacheWrites,
           totalCacheReads := s.totalCacheReads + ci.cacheReads }

/-- Extract the current mode from the state JSON (extractMode). -/
def extractMode (stateJson : String) : String :=
  match parseJson stateJson with
  | some st =>
    match jGet st "mode" with
    | some (.str s) => if s == "act" then "act" else "plan"
    | _ => "plan"
  | none => "plan"

/-- Extract the primary workspace root path from the state JSON
(extractWorkspaceRoot). -/
def extractWorkspaceRoot (stateJson : String) : Option String :=
  match parseJson stateJson with
  | none => none
  | some st =>
    match jGet st "workspaceRoots" with
    | some (.arr roots) =>
      if roots.length > 0 then
        let idx : Nat :=
          match jGet st "primaryRootIndex" with
          | some (.num q) =>
            if q.den == 1 && 0 ≤ q.num then q.num.toNat else roots.length
          | some _ => roots.length
          | none => 0
        let chosen :=
          match roots.get? idx with
          | some v => if jTruthy v then v else roots.headD .null
          | none => roots.headD .null
        match jGet chosen "path" with
        | some (.str p) => some p
        | _ => none
      else none
    | _ => none

/-- Convert one raw JSON message object to a ClineMessage
(the mapping inside extractMessagesFromState). -/
def toClineMessage (j : JVal) : ClineMessage :=
  { ts :=
      match jGet j "ts" with
      | some (.num q) => if q.den == 1 && 0 ≤ q.num then q.num.toNat else 0
      | _ => 0,
    type := (strField j "type").getD "",
    ask := (strField j "ask").getD "",
    say := (strField j "say").getD "",
    text := strField j "text",
    reasoning := (strField j "reasoning").getD "",
    streaming :=
      match jGet j "partial" with
      | some v => jTruthy v
      | none => false,
    planModeResponse :=
      match jGet j "planModeResponse" with
      | some o => strField o "response"
      | none => none,
    askQuestion :=
      match jGet j "askQuestion" with
      | some o => strField o "question"
      | none => none }

/-- Extract messages from the state JSON (extractMessagesFromState). -/
def extractMessagesFromState (stateJson : String) : List ClineMessage :=
  match parseJson stateJson with
  | some st =>
    match jGet st "clineMessages" with
    | some (.arr xs) => xs.map toClineMessage
    | _ => []
  | none => []

/-- The raw state.mode value (input to extractMode's comparison), lifted to
the Snapshot representation. -/
def extractModeRaw (stateJson : String) : Option String :=
  match parseJson stateJson with
  | some st => strField st "mode"
  | none => none

/-- Assemble the Snapshot the loop body works on from one state update. -/
def snapshotOfState (stateJson : String) : Snapshot :=
  ⟨extractMessagesFromState stateJson, extractWorkspaceRoot stateJson,
   extractModeRaw stateJson⟩

/-- The extracted mode of a snapshot (extractMode's ternary on state.mode). -/
def extractModeOf (snap : Snapshot) : String :=
  if snap.modeRaw == some "act" then "act" else "plan"

/-- The per-turn tracking state of processStreamingResponses, together with
the session it mutates. -/
structure LoopState where
  session : Session
  sent : List Nat
  lastTaskProgressTs : Option Nat
  currentMode : Option String
  handled : List Nat
  inProg : List Nat
  costProcessed : List Nat

/-- Accumulator of the per-message scan: the sent and in-progress sets and the
notifications emitted so far in this snapshot. -/
structure MsgAcc where
  sent : List Nat
  inProg : List Nat
  notifs : List Notification

/-- The mode-change check at the top of each snapshot iteration: emit a
current_mode_update only when a previously recorded mode differs. -/
def modeNotifications (currentMode : Option String) (newMode : String) :
    List Notification :=
  match currentMode with
  | some m => if newMode != m then [.currentModeUpdate newMode] else []
  | none => []

/-- One step of the cost-accumulation loop over the snapshot's messages. -/
def costStep (acc : List Nat × Session) (m : ClineMessage) : List Nat × Session :=
  if m.ts != 0 && !acc.1.contains m.ts then
    match extractCostInfo m with
    | some ci => (insertTs m.ts acc.1, addCost acc.2 ci)
    | none => acc
  else acc

/-- The cost-accumulation phase of one snapshot iteration. -/
def costPhase (msgs : List ClineMessage) (cp : List Nat) (s : Session) :
    List Nat × Session :=
  msgs.foldl costStep (cp, s)

/-- The strict-inequality test latestTaskProgress.ts !== lastTaskProgressTs
(a number is never strictly equal to null). -/
def tpDiffers (lastTp : Option Nat) (t : Nat) : Bool :=
  match lastTp with
  | some r => t != r
  | none => true

/-- The tracker update lastTaskProgressTs = latestTaskProgress.ts || null. -/
def tpNew (t : Nat) : Option Nat :=
  if t = 0 then none else some t

/-- The task_progress phase: when the latest task_progress timestamp differs
from the tracked one, update the tracker (ts || null) and emit a plan
notification when the checklist parses. -/
def taskProgressPhase (lastTp : Option Nat) (msgs : List ClineMessage) :
    Option Nat × List Notification :=
  match getLatestTaskProgress msgs with
  | none => (lastTp, [])
  | some m =>
    if tpDiffers lastTp m.ts then
      match clineTaskProgressToAcpPlan m with
      | some n => (tpNew m.ts, [n])
      | none => (tpNew m.ts, [])
    else (lastTp, [])

/-- Process one message of the snapshot (the body of the for loop over
messages, minus the approval/termination checks that follow the loop). -/
def stepMessage (u : String) (root : Option String) (acc : MsgAcc)
    (p : Nat × ClineMessage) : MsgAcc :=
  let m := p.2
  if m.streaming then
    if lowerStr m.type == "say" && lowerStr m.say == "tool" && m.ts != 0
        && !acc.inProg.contains m.ts then
      match clineSayToolToAcpToolCallInProgress m root with
      | some n =>
        { acc with inProg := insertTs m.ts acc.inProg, notifs := acc.notifs ++ [n] }
      | none => acc
    else acc
  else if m.ts != 0 && acc.sent.contains m.ts then acc
  else if lowerStr m.type == "say" && lowerStr m.say == "text" && m.text == some u then
    { acc with sent := insertIfTs m.ts acc.sent }
  else if lowerStr m.type == "say" && lowerStr m.say == "task_progress" then
    { acc with sent := insertIfTs m.ts acc.sent }
  else
    let sent1 := insertIfTs m.ts acc.sent
    if lowerStr m.type == "say" && lowerStr m.say == "tool" && m.ts != 0
        && acc.inProg.contains m.ts then
      match clineSayToolToAcpToolCall m root with
      | some n =>
        { sent := sent1, inProg := acc.inProg.erase m.ts,
          notifs := acc.notifs ++ [n] }
      | none =>
        { sent := sent1, inProg := acc.inProg.erase m.ts, notifs := acc.notifs }
    else
      match clineMessageToAcpNotification m p.1 root with
      | some n => { sent := sent1, inProg := acc.inProg, notifs := acc.notifs ++ [n] }
      | none => { sent := sent1, inProg := acc.inProg, notifs := acc.notifs }

/-- The per-message scan over one snapshot. -/
def processMessages (u : String) (root : Option String) (acc : MsgAcc)
    (msgs : List ClineMessage) : MsgAcc :=
  (withIdx 0 msgs).foldl (stepMessage u root) acc

/-- Outcome test of handleApprovalRequest: the caller selected one of the two
allow options. -/
def isAllowOutcome (o : PermissionOutcome) : Bool :=
  o.outcome == "selected" && (o.optionId == "allow" || o.optionId == "allow_always")

/-- The blocking approval round-trip (handleApprovalRequest): issue one
permission request for the last message, relay the decision to the backend,
and on any non-allow outcome additionally emit a failed tool_call_update.
The decision oracle dec stands for the ACP client's answer, keyed by the
message timestamp. -/
def handleApprovalRequest (dec : Nat → PermissionOutcome) (msgs : List ClineMessage) :
    List Notification × List BackendResponse × List PermissionRequest :=
  match msgs.getLast? with
  | none => ([], [], [])
  | some lm =>
    let ti := parseToolInfo lm none
    let req : PermissionRequest := ⟨natToString lm.ts, ti.title, ti.input⟩
    let o := dec lm.ts
    if o.outcome == "selected" && (o.optionId == "allow" || o.optionId == "allow_always") then
      ([], [.yesButtonClicked], [req])
    else
      ([createToolCallUpdate (natToString lm.ts) "failed"], [.noButtonClicked], [req])

/-- Result of the post-scan last-message checks. -/
structure ApprovalOut where
  handled : List Nat
  notifs : List Notification
  responses : List BackendResponse
  permissions : List PermissionRequest
  result : StepResult

/-- The last-message checks after the scan: approval (at most once per
timestamp), then waiting-for-user, then task-complete; the approval branch
continues the loop. -/
def approvalPhase (dec : Nat → PermissionOutcome) (existing : List Nat)
    (handled : List Nat) (msgs : List ClineMessage) : ApprovalOut :=
  match msgs.getLast? with
  | none => ⟨handled, [], [], [], .goOn⟩
  | some lm =>
    let lastNew := lm.ts != 0 && !existing.contains lm.ts
    if lastNew && needsApproval msgs then
      if lm.ts != 0 && !handled.contains lm.ts then
        let h := handleApprovalRequest dec msgs
        ⟨insertTs lm.ts handled, h.1, h.2.1, h.2.2, .goOn⟩
      else ⟨handled, [], [], [], .goOn⟩
    else if lastNew && isWaitingForUserInput msgs then ⟨handled, [], [], [], .stopWait⟩
    else if lastNew && isTaskComplete msgs then ⟨handled, [], [], [], .stopComplete⟩
    else ⟨handled, [], [], [], .goOn⟩

/-- The body of one snapshot iteration (after the cancellation check). -/
def processSnapshotBody (dec : Nat → PermissionOutcome) (u : String)
    (existing : List Nat) (st : LoopState) (snap : Snapshot) :
    LoopState × StepOutput :=
  let newMode := extractModeOf snap
  let cs := costPhase snap.messages st.costProcessed st.session
  let tp := taskProgressPhase st.lastTaskProgressTs snap.messages
  let macc := processMessages u snap.root ⟨st.sent, st.inProg, []⟩ snap.messages
  let ap := approvalPhase dec existing st.handled snap.messages
  ({ session := cs.2, sent := macc.sent, lastTaskProgressTs := tp.1,
     currentMode := some newMode, handled := ap.handled, inProg := macc.inProg,
     costProcessed := cs.1 },
   ⟨modeNotifications st.currentMode newMode ++ tp.2 ++ macc.notifs ++ ap.notifs,
    ap.permissions, ap.responses, ap.result⟩)

/-- One iteration of the snapshot-consumption loop: the cancellation check,
then the body.  The decision oracle, user input text and pre-existing
timestamp set are fixed for the turn. -/
def processSnapshot (dec : Nat → PermissionOutcome) (u : String)
    (existing : List Nat) (st : LoopState) (snap : Snapshot) :
    LoopState × StepOutput :=
  if st.session.cancelled then (st, ⟨[], [], [], .stopCancel⟩)
  else processSnapshotBody dec u existing st snap

/-- Consume a sequence of snapshots, stopping when an iteration reports a
non-continue result (break in the source loop). -/
def processSnapshots (dec : Nat → PermissionOutcome) (u : String)
    (existing : List Nat) : LoopState → List Snapshot → LoopState × StepOutput
  | st, [] => (st, ⟨[], [], [], .goOn⟩)
  | st, s :: rest =>
    let p1 := processSnapshot dec u existing st s
    match p1.2.result with
    | .goOn =>
      let p2 := processSnapshots dec u existing p1.1 rest
      (p2.1, ⟨p1.2.notifs ++ p2.2.notifs, p1.2.permissions ++ p2.2.permissions,
              p1.2.responses ++ p2.2.responses, p2.2.result⟩)
    | _ => p1

/-- The fresh per-turn tracking state built at the top of
processStreamingResponses: the sent set is seeded with the pre-existing
timestamps, every other tracker starts empty. -/
def freshLoopState (sess : Session) (existing : List Nat) : LoopState :=
  { session := sess, sent := existing, lastTaskProgressTs := none,
    currentMode := none, handled := [], inProg := [], costProcessed := [] }

/-- The pre-existing timestamp set computed in prompt() before sending the
prompt (timestamps of the latest snapshot's messages, truthy ones only). -/
def existingTimestampsOf (msgs : List ClineMessage) : List Nat :=
  msgs.foldl (fun acc m => if m.ts != 0 then insertTs m.ts acc else acc) []

/-- The turn start performed by prompt() for a session whose task already
exists: reset the cancellation flag, seed the pre-existing timestamp set from
the latest snapshot, and enter the loop with fresh tracking sets.  Returns the
existing-timestamps set together with the initial loop state. -/
def promptStart (sess : Session) (latestMsgs : List ClineMessage) :
    List Nat × LoopState :=
  let sess1 := { sess with cancelled := false }
  let existing := if sess1.isTaskCreated then existingTimestampsOf latestMsgs else []
  (existing, freshLoopState sess1 existing)

/-- One content chunk of an ACP prompt request. -/
inductive ContentBlock where
  | textBlock (text : String) : ContentBlock
  | resourceLink (uri : String) : ContentBlock
  | resourceBlock (uri : String) (textContent : Option String) : ContentBlock
  | imageBlock (data : String) : ContentBlock
deriving DecidableEq, Repr

/-- The prompt format sent to the backend (ClinePrompt). -/
structure ClinePrompt where
  text : String
  images : List String
  files : List String
deriving DecidableEq, Repr

/-- One iteration of the content-block loop of acpPromptToCline: text chunks
are concatenated, file resource links go to files with the scheme stripped,
other resource links are inlined bracketed, embedded text resources become
context blocks, and image chunks fall through without effect. -/
def promptAccStep (acc : ClinePrompt) (b : ContentBlock) : ClinePrompt :=
  match b with
  | .textBlock t => { acc with text := acc.text ++ t }
  | .resourceLink uri =>
    if sStartsWith uri "file://" then
      { acc with files := acc.files ++ [sDrop uri 7] }
    else
      { acc with text := acc.text ++ "[" ++ uri ++ "]" }
  | .resourceBlock uri tc =>
    match tc with
    | some t =>
      { acc with text := acc.text ++ "\n<context ref=\"" ++ uri ++ "\">\n"
          ++ t ++ "\n</context>" }
    | none => acc
  | .imageBlock _ => acc

/-- Convert an ACP prompt to the Cline format (acpPromptToCline). -/
def acpPromptToCline (blocks : List ContentBlock) : ClinePrompt :=
  blocks.foldl promptAccStep ⟨"", [], []⟩

/-- The prompt capabilities advertised by initialize(). -/
structure PromptCapabilities where
  image : Bool
  embeddedContext : Bool
deriving DecidableEq, Repr

/-- The agentCapabilities.promptCapabilities value returned by initialize(). -/
def initializePromptCapabilities : PromptCapabilities :=
  ⟨true, true⟩

/-- Recognise a current_mode_update notification. -/
def isModeUpdateB : Notification → Bool
  | .currentModeUpdate _ => true
  | _ => false

/-- A partial message that the scan would announce as an in-progress tool
call: a partial say tool message with a truthy timestamp whose payload parses
to a known tool. -/
def partialToolEmit (root : Option String) (m : ClineMessage) : Bool :=
  lowerStr m.type == "say" && lowerStr m.say == "tool" && m.ts != 0
    && (clineSayToolToAcpToolCallInProgress m root).isSome

/-- A message is covered by the tracking sets: re-processing it emits nothing
and changes nothing.  A complete message is covered when its (truthy)
timestamp is in the sent set; a partial message is covered when, if it would
announce an in-progress tool call at all, its timestamp is already in the
in-progress set. -/
def CoveredMsg (sent inProg : List Nat) (root : Option String) (m : ClineMessage) : Prop :=
  if m.streaming then partialToolEmit root m = true → m.ts ∈ inProg
  else m.ts ≠ 0 ∧ m.ts ∈ sent

/-- A session with zeroed telemetry in plan mode, with its task created
(concrete instantiation data). -/
def sessW : Session := ⟨"plan", false, true, 0, 0, 0, 0, 0⟩

/-- A decision oracle that always allows (concrete instantiation data). -/
def decAllowW : Nat → PermissionOutcome := fun _ => ⟨"selected", "allow"⟩

/-- A decision oracle that always rejects (concrete instantiation data). -/
def decRejectW : Nat → PermissionOutcome := fun _ => ⟨"selected", "reject"⟩

/-- Concrete instantiation data: a complete command_output message. -/
def c1msgW : ClineMessage := ⟨5, "say", "", "command_output", some "done", "", false, none, none⟩

/-- Concrete instantiation data: one-message snapshot. -/
def c1snapW : Snapshot := ⟨[c1msgW], none, none⟩

/-- Concrete instantiation data: an api_req_started message whose cost field
is exactly zero (still cost-bearing) with three input tokens. -/
def c2msgW : ClineMessage :=
  ⟨4, "say", "", "api_req_started", some "\x7b\"cost\":0,\"tokensIn\":3\x7d", "", false, none, none⟩

/-- Concrete instantiation data: snapshot carrying the cost message. -/
def c2snapW : Snapshot := ⟨[c2msgW], none, none⟩

/-- Concrete instantiation data: a partial say tool message (truncated
payload, no path yet). -/
def c3mpW : ClineMessage :=
  ⟨7, "say", "", "tool", some "\x7b\"tool\":\"read_file\"\x7d", "", true, none, none⟩

/-- Concrete instantiation data: the complete version of the same tool
message, same timestamp, with the resolved path. -/
def c3mcW : ClineMessage :=
  ⟨7, "say", "", "tool", some "\x7b\"tool\":\"read_file\",\"path\":\"/w/a.ts\"\x7d", "", false, none, none⟩

/-- Concrete instantiation data: an approval-eligible complete tool ask. -/
def c4msgW : ClineMessage :=
  ⟨9, "ask", "tool", "", some "\x7b\"tool\":\"read_file\",\"path\":\"a.ts\"\x7d", "", false, none, none⟩

/-- Concrete instantiation data: an approval-eligible complete command ask. -/
def c5msgW : ClineMessage := ⟨11, "ask", "command", "", some "ls -la", "", false, none, none⟩

/-- Concrete instantiation data: an empty snapshot in plan mode. -/
def c6snapPlanW : Snapshot := ⟨[], none, none⟩

/-- Concrete instantiation data: an empty snapshot in act mode. -/
def c6snapActW : Snapshot := ⟨[], none, some "act"⟩

/-- Concrete instantiation data: the echoed user input message at index 0. -/
def c7m1W : ClineMessage := ⟨1, "say", "", "text", some "Hello", "", false, none, none⟩

/-- Concrete instantiation data: the assistant reply at index 1. -/
def c7m2W : ClineMessage := ⟨2, "say", "", "text", some "Hi there", "", false, none, none⟩

/-- Concrete instantiation data: the two-message echo-suppression snapshot. -/
def c7snapW : Snapshot := ⟨[c7m1W, c7m2W], none, none⟩

/-
  Helper lemmas.
-/

theorem getLatestTaskProgress_mem {msgs : List ClineMessage} {m : ClineMessage}
    (h : getLatestTaskProgress msgs = some m) : m ∈ msgs := by
  unfold getLatestTaskProgress at h
  exact List.mem_reverse.1 (List.mem_of_find?_eq_some h)

theorem containsTrue {l : List Nat} {a : Nat} : l.contains a = true ↔ a ∈ l := by
  simp

theorem mem_insertTs_self {t : Nat} {l : List Nat} : t ∈ insertTs t l := by
  unfold insertTs
  split
  · next h => exact containsTrue.1 h
  · exact List.mem_cons_self t l

theorem mem_insertTs {a t : Nat} {l : List Nat} (h : a ∈ l) : a ∈ insertTs t l := by
  unfold insertTs
  split
  · exact h
  · exact List.mem_cons_of_mem t h

theorem mem_insertIfTs {a t : Nat} {l : List Nat} (h : a ∈ l) : a ∈ insertIfTs t l := by
  unfold insertIfTs
  split
  · exact mem_insertTs h
  · exact h

theorem mem_insertIfTs_self {t : Nat} {l : List Nat} (ht : t ≠ 0) : t ∈ insertIfTs t l := by
  unfold insertIfTs
  rw [if_pos (by simpa using ht)]
  exact mem_insertTs_self

theorem insertTs_of_mem {t : Nat} {l : List Nat} (h : t ∈ l) : insertTs t l = l := by
  unfold insertTs
  rw [if_pos (containsTrue.2 h)]

/-- The in-progress converter only ever produces tool_call notifications. -/
theorem sayToolInProgress_not_mode {m : ClineMessage} {root : Option String}
    {n : Notification} (h : clineSayToolToAcpToolCallInProgress m root = some n) :
    isModeUpdateB n = false := by
  simp only [clineSayToolToAcpToolCallInProgress] at h
  split at h
  · simp at h
  · split at h
    · simp at h
    · simp only [Option.some.injEq] at h
      subst h
      rfl

/-- The completed-tool converter only ever produces tool_call notifications. -/
theorem sayTool_not_mode {m : ClineMessage} {root : Option String}
    {n : Notification} (h : clineSayToolToAcpToolCall m root = some n) :
    isModeUpdateB n = false := by
  simp only [clineSayToolToAcpToolCall] at h
  split at h
  · simp at h
  · simp only [Option.some.injEq] at h
    subst h
    rfl

/-- The plan converter only ever produces plan notifications. -/
theorem taskProgressPlan_not_mode {m : ClineMessage} {n : Notification}
    (h : clineTaskProgressToAcpPlan m = some n) : isModeUpdateB n = false := by
  simp only [clineTaskProgressToAcpPlan] at h
  split at h
  · simp at h
  · simp only [Option.some.injEq] at h
    subst h
    rfl

-- The classifier never produces a current_mode_update notification.
set_option maxHeartbeats 1600000 in
theorem classifier_not_mode {m : ClineMessage} {i : Nat} {root : Option String}
    {n : Notification} (h : clineMessageToAcpNotification m i root = some n) :
    isModeUpdateB n = false := by
  simp only [clineMessageToAcpNotification] at h
  repeat' split at h
  all_goals
    first
    | exact sayTool_not_mode h
    | (cases h <;> rfl)

theorem filter_mode_append (xs ys : List Notification) :
    (xs ++ ys).filter isModeUpdateB = xs.filter isModeUpdateB ++ ys.filter isModeUpdateB :=
  List.filter_append xs ys

theorem filter_mode_append_single {n : Notification} (xs : List Notification)
    (hn : isModeUpdateB n = false) :
    (xs ++ [n]).filter isModeUpdateB = xs.filter isModeUpdateB := by
  simp [List.filter_append, List.filter, hn]

/-- One scan step adds no current_mode_update notification. -/
theorem stepMessage_filter_mode (u : String) (root : Option String) (acc : MsgAcc)
    (p : Nat × ClineMessage) :
    ((stepMessage u root acc p).notifs).filter isModeUpdateB
      = acc.notifs.filter isModeUpdateB := by
  obtain ⟨i, m⟩ := p
  simp only [stepMessage]
  repeat' split
  all_goals
    first
    | rfl
    | exact filter_mode_append_single _ (sayToolInProgress_not_mode (by assumption))
    | exact filter_mode_append_single _ (sayTool_not_mode (by assumption))
    | exact filter_mode_append_single _ (classifier_not_mode (by assumption))

/-- The whole scan adds no current_mode_update notification. -/
theorem foldScan_filter_mode (u : String) (root : Option String) :
    ∀ (ps : List (Nat × ClineMessage)) (acc : MsgAcc),
      ((ps.foldl (stepMessage u root) acc).notifs).filter isModeUpdateB
        = acc.notifs.filter isModeUpdateB := by
  intro ps
  induction ps with
  | nil => intro acc; rfl
  | cons q rest ih =>
    intro acc
    simp only [List.foldl_cons]
    rw [ih, stepMessage_filter_mode]

/-- Membership in the processed-cost set is preserved by a cost step. -/
theorem costStep_mono {acc : List Nat × Session} {m : ClineMessage} {a : Nat}
    (h : a ∈ acc.1) : a ∈ (costStep acc m).1 := by
  unfold costStep
  repeat' split
  all_goals first | exact h | exact mem_insertTs h

/-- Membership in the processed-cost set is preserved by the cost phase. -/
theorem costFold_mono {a : Nat} :
    ∀ (msgs : List ClineMessage) (acc : List Nat × Session), a ∈ acc.1 →
      a ∈ (msgs.foldl costStep acc).1 := by
  intro msgs
  induction msgs with
  | nil => intro acc h; exact h
  | cons q rest ih =>
    intro acc h
    simp only [List.foldl_cons]
    exact ih _ (costStep_mono h)

/-- After the cost phase, every cost-bearing message with a truthy timestamp
has its timestamp in the processed-cost set. -/
theorem costFold_covers :
    ∀ (msgs : List ClineMessage) (acc : List Nat × Session) (m : ClineMessage),
      m ∈ msgs → m.ts ≠ 0 → (extractCostInfo m).isSome →
      m.ts ∈ (msgs.foldl costStep acc).1 := by
  intro msgs
  induction msgs with
  | nil => intro acc m hm; cases hm
  | cons q rest ih =>
    intro acc m hm ht hc
    simp only [List.foldl_cons]
    rcases List.mem_cons.1 hm with rfl | hm'
    · apply costFold_mono
      unfold costStep
      split
      · cases hsome : extractCostInfo m with
        | none => rw [hsome] at hc; simp at hc
        | some ci => simp only [hsome]; exact mem_insertTs_self
      · next hguard =>
        have hcon : acc.1.contains m.ts = true := by
          by_cases hb : acc.1.contains m.ts = true
          · exact hb
          · simp only [Bool.not_eq_true] at hb
            exact absurd (by rw [hb]; simp [ht]) hguard
        exact containsTrue.1 hcon
    · exact ih _ m hm' ht hc

/-- The cost phase is the identity when every message is either without a
truthy timestamp, not cost-bearing, or already processed. -/
theorem costFold_inert {cp : List Nat} {s : Session} :
    ∀ (msgs : List ClineMessage),
      (∀ m ∈ msgs, m.ts = 0 ∨ extractCostInfo m = none ∨ m.ts ∈ cp) →
      msgs.foldl costStep (cp, s) = (cp, s) := by
  intro msgs
  induction msgs with
  | nil => intro _; rfl
  | cons q rest ih =>
    intro h
    simp only [List.foldl_cons]
    have hq : costStep (cp, s) q = (cp, s) := by
      unfold costStep
      rcases h q (List.mem_cons_self q rest) with h0 | hnone | hmem
      · rw [if_neg (by simp [h0])]
      · split
        · simp only [hnone]
        · rfl
      · have hcontains : List.contains (cp, s).1 q.ts = true := containsTrue.2 hmem
        rw [if_neg]
        rw [hcontains]
        simp
    rw [hq]
    exact ih (fun m hm => h m (List.mem_cons_of_mem q hm))

/-- The second component of an indexed list member is a member. -/
theorem withIdx_snd_mem {α : Type} :
    ∀ {n : Nat} {l : List α} {p : Nat × α}, p ∈ withIdx n l → p.2 ∈ l := by
  intro n l
  induction l generalizing n with
  | nil => intro p h; cases h
  | cons a as ih =>
    intro p h
    rcases List.mem_cons.1 h with rfl | h'
    · exact List.mem_cons_self a as
    · exact List.mem_cons_of_mem a (ih h')

/-- Indexing then projecting recovers the list. -/
theorem withIdx_map_snd {α : Type} :
    ∀ (n : Nat) (l : List α), (withIdx n l).map (fun p => p.2) = l := by
  intro n l
  induction l generalizing n with
  | nil => rfl
  | cons a as ih => simp [withIdx, ih]

/-- The sent set only grows under one scan step. -/
theorem stepMessage_sent_mono {u : String} {root : Option String} {acc : MsgAcc}
    {p : Nat × ClineMessage} {a : Nat} (h : a ∈ acc.sent) :
    a ∈ (stepMessage u root acc p).sent := by
  obtain ⟨i, m⟩ := p
  simp only [stepMessage]
  repeat' split
  all_goals first | exact h | exact mem_insertIfTs h

/-- In-progress membership is preserved by a step over a different timestamp. -/
theorem stepMessage_inProg_preserve {u : String} {root : Option String} {acc : MsgAcc}
    {p : Nat × ClineMessage} {a : Nat} (hne : a ≠ p.2.ts) (h : a ∈ acc.inProg) :
    a ∈ (stepMessage u root acc p).inProg := by
  obtain ⟨i, m⟩ := p
  simp only [stepMessage]
  repeat' split
  all_goals
    first
    | exact h
    | exact mem_insertTs h
    | exact (List.mem_erase_of_ne hne).2 h

/-- Coverage of a message is preserved by a scan step over a different
timestamp. -/
theorem stepMessage_preserves_covered {u : String} {root : Option String}
    {acc : MsgAcc} {p : Nat × ClineMessage} {m : ClineMessage}
    (hne : p.2.ts ≠ m.ts)
    (h : CoveredMsg acc.sent acc.inProg root m) :
    CoveredMsg (stepMessage u root acc p).sent (stepMessage u root acc p).inProg root m := by
  unfold CoveredMsg at h ⊢
  split at h
  · next hs =>
    rw [if_pos hs]
    intro hemit
    exact stepMessage_inProg_preserve (Ne.symm hne) (h hemit)
  · next hs =>
    rw [if_neg hs]
    exact ⟨h.1, stepMessage_sent_mono h.2⟩

/-- A scan step covers the message it just processed (truthy timestamp). -/
theorem stepMessage_establishes_covered {u : String} {root : Option String}
    {acc : MsgAcc} {i : Nat} {m : ClineMessage} (ht : m.ts ≠ 0) :
    CoveredMsg (stepMessage u root acc (i, m)).sent
      (stepMessage u root acc (i, m)).inProg root m := by
  unfold CoveredMsg
  by_cases hs : m.streaming = true
  · rw [if_pos hs]
    intro hemit
    simp only [stepMessage, hs, if_true]
    by_cases hg : (lowerStr m.type == "say" && lowerStr m.say == "tool" && m.ts != 0
        && !acc.inProg.contains m.ts) = true
    · rw [if_pos hg]
      have hsome : (clineSayToolToAcpToolCallInProgress m root).isSome = true := by
        simp only [partialToolEmit, Bool.and_eq_true] at hemit
        exact hemit.2
      obtain ⟨n, hn⟩ := Option.isSome_iff_exists.1 hsome
      rw [hn]
      exact mem_insertTs_self
    · rw [if_neg hg]
      -- the guard can only fail here because the timestamp is already tracked
      simp only [partialToolEmit, Bool.and_eq_true] at hemit
      by_cases hcon : acc.inProg.contains m.ts = true
      · exact containsTrue.1 hcon
      · exfalso
        apply hg
        simp only [Bool.not_eq_true] at hcon
        rw [hcon]
        simp only [Bool.and_eq_true]
        exact ⟨hemit.1, rfl⟩
  · rw [if_neg hs]
    refine ⟨ht, ?_⟩
    have hs' : m.streaming = false := by
      simpa using hs
    simp only [stepMessage, hs']
    by_cases hskip : (m.ts != 0 && acc.sent.contains m.ts) = true
    · rw [if_neg (by simp [hs']), if_pos hskip]
      simp only [Bool.and_eq_true] at hskip
      exact containsTrue.1 hskip.2
    · rw [if_neg (by simp [hs']), if_neg hskip]
      repeat' split
      all_goals exact mem_insertIfTs_self ht

/-- A scan step over a covered message is the identity. -/
theorem stepMessage_inert {u : String} {root : Option String} {acc : MsgAcc}
    {i : Nat} {m : ClineMessage}
    (h : CoveredMsg acc.sent acc.inProg root m) :
    stepMessage u root acc (i, m) = acc := by
  unfold CoveredMsg at h
  by_cases hs : m.streaming = true
  · rw [if_pos hs] at h
    simp only [stepMessage, hs, if_true]
    by_cases hg : (lowerStr m.type == "say" && lowerStr m.say == "tool" && m.ts != 0
        && !acc.inProg.contains m.ts) = true
    · rw [if_pos hg]
      cases hconv : clineSayToolToAcpToolCallInProgress m root with
      | none => rfl
      | some n =>
        exfalso
        simp only [Bool.and_eq_true] at hg
        have hemit : partialToolEmit root m = true := by
          simp only [partialToolEmit, Bool.and_eq_true]
          exact ⟨hg.1, by rw [hconv]; rfl⟩
        have hmem := h hemit
        have := containsTrue.2 hmem
        rw [this] at hg
        simp at hg
    · rw [if_neg hg]
  · have hs' : m.streaming = false := by simpa using hs
    rw [if_neg hs] at h
    simp only [stepMessage, hs']
    rw [if_neg (by simp [hs'])]
    rw [if_pos (by simp only [Bool.and_eq_true]
                   exact ⟨by simpa using h.1, containsTrue.2 h.2⟩)]

/-- Coverage is preserved by the whole scan when no later message shares the
timestamp. -/
theorem foldScan_preserves_covered {u : String} {root : Option String}
    {m : ClineMessage} :
    ∀ (ps : List (Nat × ClineMessage)) (acc : MsgAcc),
      (∀ p ∈ ps, p.2.ts ≠ m.ts) →
      CoveredMsg acc.sent acc.inProg root m →
      CoveredMsg (ps.foldl (stepMessage u root) acc).sent
        (ps.foldl (stepMessage u root) acc).inProg root m := by
  intro ps
  induction ps with
  | nil => intro acc _ h; exact h
  | cons q rest ih =>
    intro acc hne h
    simp only [List.foldl_cons]
    exact ih _ (fun p hp => hne p (List.mem_cons_of_mem q hp))
      (stepMessage_preserves_covered (hne q (List.mem_cons_self q rest)) h)

/-- After a scan over messages with truthy pairwise-distinct timestamps,
every scanned message is covered by the resulting sets. -/
theorem foldScan_covers {u : String} {root : Option String} :
    ∀ (ps : List (Nat × ClineMessage)) (acc : MsgAcc),
      (∀ p ∈ ps, p.2.ts ≠ 0) →
      (ps.map (fun p => p.2)).Pairwise (fun a b => a.ts ≠ b.ts) →
      ∀ p ∈ ps, CoveredMsg (ps.foldl (stepMessage u root) acc).sent
        (ps.foldl (stepMessage u root) acc).inProg root p.2 := by
  intro ps
  induction ps with
  | nil => intro acc _ _ p hp; cases hp
  | cons q rest ih =>
    intro acc hts hpw p hp
    simp only [List.map_cons, List.pairwise_cons] at hpw
    simp only [List.foldl_cons]
    rcases List.mem_cons.1 hp with rfl | hp'
    · apply foldScan_preserves_covered rest (stepMessage u root acc p)
      · intro p' hp2
        exact Ne.symm (hpw.1 p'.2 (List.mem_map_of_mem (fun x => x.2) hp2))
      · exact stepMessage_establishes_covered (hts p (List.mem_cons_self p rest))
    · exact ih _ (fun p' h' => hts p' (List.mem_cons_of_mem q h')) hpw.2 p hp'

/-- A scan over messages that are all covered is the identity. -/
theorem foldScan_inert {u : String} {root : Option String} :
    ∀ (ps : List (Nat × ClineMessage)) (acc : MsgAcc),
      (∀ p ∈ ps, CoveredMsg acc.sent acc.inProg root p.2) →
      ps.foldl (stepMessage u root) acc = acc := by
  intro ps
  induction ps with
  | nil => intro acc _; rfl
  | cons q rest ih =>
    intro acc h
    simp only [List.foldl_cons]
    have hq : stepMessage u root acc q = acc := by
      obtain ⟨i, m⟩ := q
      exact stepMessage_inert (h (i, m) (List.mem_cons_self _ rest))
    rw [hq]
    exact ih acc (fun p hp => h p (List.mem_cons_of_mem q hp))

/-- The cost phase never changes the cancellation flag, mode or task-created
flag of the session. -/
theorem costFold_session_inv :
    ∀ (msgs : List ClineMessage) (acc : List Nat × Session),
      (msgs.foldl costStep acc).2.cancelled = acc.2.cancelled
        ∧ (msgs.foldl costStep acc).2.mode = acc.2.mode
        ∧ (msgs.foldl costStep acc).2.isTaskCreated = acc.2.isTaskCreated := by
  intro msgs
  induction msgs with
  | nil => intro acc; exact ⟨rfl, rfl, rfl⟩
  | cons q rest ih =>
    intro acc
    simp only [List.foldl_cons]
    have hstep : (costStep acc q).2.cancelled = acc.2.cancelled
        ∧ (costStep acc q).2.mode = acc.2.mode
        ∧ (costStep acc q).2.isTaskCreated = acc.2.isTaskCreated := by
      unfold costStep
      repeat' split
      all_goals exact ⟨rfl, rfl, rfl⟩
    obtain ⟨h1, h2, h3⟩ := ih (costStep acc q)
    exact ⟨h1.trans hstep.1, h2.trans hstep.2.1, h3.trans hstep.2.2⟩

/-- In every case, after the task-progress phase the tracker equals the latest
task_progress timestamp (when one exists with a truthy timestamp). -/
theorem taskProgress_fst {msgs : List ClineMessage} {lt : Option Nat}
    {m : ClineMessage} (hfind : getLatestTaskProgress msgs = some m)
    (ht : m.ts ≠ 0) : (taskProgressPhase lt msgs).1 = some m.ts := by
  have hnew : tpNew m.ts = some m.ts := by
    unfold tpNew
    rw [if_neg ht]
  simp only [taskProgressPhase, hfind]
  cases lt with
  | none =>
    simp only [tpDiffers, if_true]
    cases hplan : clineTaskProgressToAcpPlan m <;> simp [hplan, hnew]
  | some r =>
    by_cases hr : m.ts = r
    · subst hr
      simp [tpDiffers]
    · rw [if_pos (by simp [tpDiffers, hr])]
      cases hplan : clineTaskProgressToAcpPlan m <;> simp [hplan, hnew]

/-- Re-running the task-progress phase on its own tracker emits nothing. -/
theorem taskProgress_idem {msgs : List ClineMessage} {lt : Option Nat}
    (hts : ∀ m ∈ msgs, m.ts ≠ 0) :
    taskProgressPhase (taskProgressPhase lt msgs).1 msgs
      = ((taskProgressPhase lt msgs).1, []) := by
  cases hfind : getLatestTaskProgress msgs with
  | none =>
    conv_lhs => rw [taskProgressPhase]
    rw [hfind]
  | some m =>
    have ht : m.ts ≠ 0 := hts m (getLatestTaskProgress_mem hfind)
    rw [taskProgress_fst hfind ht]
    simp only [taskProgressPhase, hfind]
    simp [tpDiffers]

/-- The handled set only grows across the last-message checks. -/
theorem approvalPhase_handled_mono {dec : Nat → PermissionOutcome} {ex handled : List Nat}
    {msgs : List ClineMessage} {a : Nat} (h : a ∈ handled) :
    a ∈ (approvalPhase dec ex handled msgs).handled := by
  simp only [approvalPhase]
  repeat' split
  all_goals first | exact h | exact mem_insertTs h

/-- With no last message the checks do nothing. -/
theorem approvalPhase_none {dec : Nat → PermissionOutcome} {ex handled : List Nat}
    {msgs : List ClineMessage} (hlast : msgs.getLast? = none) :
    approvalPhase dec ex handled msgs = ⟨handled, [], [], [], .goOn⟩ := by
  simp only [approvalPhase, hlast]

/-- When the last message's timestamp is already handled, the checks leave the
handled set unchanged and emit nothing. -/
theorem approvalPhase_shape_of_handled {dec : Nat → PermissionOutcome}
    {ex handled : List Nat} {msgs : List ClineMessage} {lm : ClineMessage}
    (hlast : msgs.getLast? = some lm) (hmem : lm.ts ∈ handled) :
    ∃ r, approvalPhase dec ex handled msgs = ⟨handled, [], [], [], r⟩ := by
  simp only [approvalPhase, hlast]
  by_cases hA : ((lm.ts != 0 && !ex.contains lm.ts) && needsApproval msgs) = true
  · rw [if_pos hA]
    rw [if_neg (by rw [containsTrue.2 hmem]; simp)]
    exact ⟨_, rfl⟩
  · rw [if_neg hA]
    repeat' split
    all_goals exact ⟨_, rfl⟩

/-- When the last message is not a fresh approval candidate, the checks leave
the handled set unchanged and emit nothing. -/
theorem approvalPhase_shape_of_notA {dec : Nat → PermissionOutcome}
    {ex handled : List Nat} {msgs : List ClineMessage} {lm : ClineMessage}
    (hlast : msgs.getLast? = some lm)
    (hA : ¬(((lm.ts != 0 && !ex.contains lm.ts) && needsApproval msgs) = true)) :
    ∃ r, approvalPhase dec ex handled msgs = ⟨handled, [], [], [], r⟩ := by
  simp only [approvalPhase, hlast]
  rw [if_neg hA]
  repeat' split
  all_goals exact ⟨_, rfl⟩

/-- After the checks run on a fresh approval candidate, its timestamp is
handled. -/
theorem approvalPhase_mem_handled {dec : Nat → PermissionOutcome}
    {ex handled : List Nat} {msgs : List ClineMessage} {lm : ClineMessage}
    (hlast : msgs.getLast? = some lm)
    (hA : ((lm.ts != 0 && !ex.contains lm.ts) && needsApproval msgs) = true) :
    lm.ts ∈ (approvalPhase dec ex handled msgs).handled := by
  simp only [approvalPhase, hlast]
  rw [if_pos hA]
  split
  · exact mem_insertTs_self
  · next hH =>
    by_cases hcb : handled.contains lm.ts = true
    · exact containsTrue.1 hcb
    · exfalso
      apply hH
      simp only [Bool.and_eq_true] at hA
      simp only [Bool.not_eq_true] at hcb
      rw [hcb]
      simp only [Bool.and_eq_true]
      exact ⟨hA.1.1, rfl⟩

/-- Re-running the last-message checks on their own handled set emits nothing
and leaves the handled set unchanged. -/
theorem approvalPhase_idem {dec : Nat → PermissionOutcome} {ex handled : List Nat}
    {msgs : List ClineMessage} :
    ∃ r, approvalPhase dec ex (approvalPhase dec ex handled msgs).handled msgs
      = ⟨(approvalPhase dec ex handled msgs).handled, [], [], [], r⟩ := by
  cases hlast : msgs.getLast? with
  | none => exact ⟨.goOn, approvalPhase_none hlast⟩
  | some lm =>
    by_cases hA : ((lm.ts != 0 && !ex.contains lm.ts) && needsApproval msgs) = true
    · exact approvalPhase_shape_of_handled hlast (approvalPhase_mem_handled hlast hA)
    · exact approvalPhase_shape_of_notA hlast hA

/-- Feeding the same snapshot again to the loop body emits nothing and leaves
the whole tracking state unchanged. -/
theorem body_idem (dec : Nat → PermissionOutcome) (u : String) (ex : List Nat)
    (st : LoopState) (snap : Snapshot)
    (hts : ∀ m ∈ snap.messages, m.ts ≠ 0)
    (hdist : snap.messages.Pairwise (fun a b => a.ts ≠ b.ts)) :
    (processSnapshotBody dec u ex (processSnapshotBody dec u ex st snap).1 snap).2.notifs = []
    ∧ (processSnapshotBody dec u ex (processSnapshotBody dec u ex st snap).1 snap).2.permissions = []
    ∧ (processSnapshotBody dec u ex (processSnapshotBody dec u ex st snap).1 snap).2.responses = []
    ∧ (processSnapshotBody dec u ex (processSnapshotBody dec u ex st snap).1 snap).1
        = (processSnapshotBody dec u ex st snap).1 := by
  have hcm : (processSnapshotBody dec u ex st snap).1.currentMode
      = some (extractModeOf snap) := rfl
  have hmode2 : modeNotifications (processSnapshotBody dec u ex st snap).1.currentMode
      (extractModeOf snap) = [] := by
    rw [hcm]
    simp [modeNotifications]
  have hcost2 : costPhase snap.messages
      (processSnapshotBody dec u ex st snap).1.costProcessed
      (processSnapshotBody dec u ex st snap).1.session
      = ((processSnapshotBody dec u ex st snap).1.costProcessed,
         (processSnapshotBody dec u ex st snap).1.session) := by
    apply costFold_inert
    intro m hm
    cases hsome : extractCostInfo m with
    | none => exact Or.inr (Or.inl rfl)
    | some ci =>
      exact Or.inr (Or.inr (costFold_covers snap.messages
        (st.costProcessed, st.session) m hm (hts m hm) (by rw [hsome]; rfl)))
  have htp2 : taskProgressPhase
      (processSnapshotBody dec u ex st snap).1.lastTaskProgressTs snap.messages
      = ((processSnapshotBody dec u ex st snap).1.lastTaskProgressTs, []) :=
    taskProgress_idem hts
  have hmsg2 : processMessages u snap.root
      ⟨(processSnapshotBody dec u ex st snap).1.sent,
       (processSnapshotBody dec u ex st snap).1.inProg, []⟩ snap.messages
      = ⟨(processSnapshotBody dec u ex st snap).1.sent,
         (processSnapshotBody dec u ex st snap).1.inProg, []⟩ := by
    apply foldScan_inert
    intro p hp
    exact foldScan_covers (withIdx 0 snap.messages) ⟨st.sent, st.inProg, []⟩
      (fun p' hp' => hts p'.2 (withIdx_snd_mem hp'))
      (by rw [withIdx_map_snd]; exact hdist) p hp
  obtain ⟨r, hap2⟩ := @approvalPhase_idem dec ex st.handled snap.messages
  have hap2' : approvalPhase dec ex
      (processSnapshotBody dec u ex st snap).1.handled snap.messages
      = ⟨(processSnapshotBody dec u ex st snap).1.handled, [], [], [], r⟩ := hap2
  have key : processSnapshotBody dec u ex (processSnapshotBody dec u ex st snap).1 snap
      = ((processSnapshotBody dec u ex st snap).1, ⟨[], [], [], r⟩) := by
    generalize hG : (processSnapshotBody dec u ex st snap).1 = st1 at hcm hmode2 hcost2 htp2 hmsg2 hap2' ⊢
    simp only [processSnapshotBody]
    rw [hcost2, htp2, hmsg2, hap2', hmode2]
    simp [← hcm]
  refine ⟨?_, ?_, ?_, ?_⟩ <;> rw [key]

/-- C1.  Idempotence of the snapshot differencer: under the data-model
invariant that message timestamps are present and unique within a snapshot,
feeding the same snapshot twice in a row produces zero additional
notifications, permission requests and backend responses on the second feed,
and leaves the whole tracking state (sent, in-progress, handled approvals,
processed costs, mode and task-progress trackers, session telemetry)
unchanged. -/
theorem c1_idempotent_second_feed (dec : Nat → PermissionOutcome) (u : String)
    (ex : List Nat) (st : LoopState) (snap : Snapshot)
    (hts : ∀ m ∈ snap.messages, m.ts ≠ 0)
    (hdist : snap.messages.Pairwise (fun a b => a.ts ≠ b.ts)) :
    (processSnapshot dec u ex (processSnapshot dec u ex st snap).1 snap).2.notifs = []
    ∧ (processSnapshot dec u ex (processSnapshot dec u ex st snap).1 snap).2.permissions = []
    ∧ (processSnapshot dec u ex (processSnapshot dec u ex st snap).1 snap).2.responses = []
    ∧ (processSnapshot dec u ex (processSnapshot dec u ex st snap).1 snap).1
        = (processSnapshot dec u ex st snap).1 := by
  by_cases hcT : st.session.cancelled = true
  · simp [processSnapshot, hcT]
  · simp only [Bool.not_eq_true] at hcT
    have e1 : processSnapshot dec u ex st snap = processSnapshotBody dec u ex st snap := by
      unfold processSnapshot
      rw [if_neg (by simp [hcT])]
    have hc1 : (processSnapshotBody dec u ex st snap).1.session.cancelled = false := by
      show (costPhase snap.messages st.costProcessed st.session).2.cancelled = false
      exact ((costFold_session_inv snap.messages (st.costProcessed, st.session)).1).trans hcT
    have e2 : processSnapshot dec u ex (processSnapshotBody dec u ex st snap).1 snap
        = processSnapshotBody dec u ex (processSnapshotBody dec u ex st snap).1 snap := by
      unfold processSnapshot
      rw [if_neg (by simp [hc1])]
    rw [e1, e2]
    exact body_idem dec u ex st snap hts hdist

/-- C1 witness: a concrete snapshot fed twice from a fresh turn state emits
nothing on the second feed. -/
theorem c1_idempotent_second_feed_witness :
    (processSnapshot decAllowW "" []
      (processSnapshot decAllowW "" [] (freshLoopState sessW []) c1snapW).1
      c1snapW).2.notifs = [] :=
  (c1_idempotent_second_feed decAllowW "" [] (freshLoopState sessW []) c1snapW
    (by decide) (by decide)).1

/-- A single snapshot folds a unique cost-bearing message into the session
exactly once and marks its timestamp processed. -/
theorem costFold_once {m : ClineMessage} {ci : ClineCostInfo} :
    ∀ (msgs : List ClineMessage) (cp : List Nat) (sess : Session),
      m ∈ msgs →
      (∀ m' ∈ msgs, (extractCostInfo m').isSome = true → m' = m) →
      extractCostInfo m = some ci → m.ts ≠ 0 → m.ts ∉ cp →
      (msgs.foldl costStep (cp, sess)).2 = addCost sess ci
        ∧ m.ts ∈ (msgs.foldl costStep (cp, sess)).1 := by
  intro msgs
  induction msgs with
  | nil => intro cp sess hm; cases hm
  | cons q rest ih =>
    intro cp sess hm honly hci ht hnp
    simp only [List.foldl_cons]
    by_cases hqm : q = m
    · subst hqm
      have hcontains : cp.contains q.ts = false := by
        by_cases hb : cp.contains q.ts = true
        · exact absurd (containsTrue.1 hb) hnp
        · simpa using hb
      have hstep : costStep (cp, sess) q = (insertTs q.ts cp, addCost sess ci) := by
        unfold costStep
        rw [if_pos (by rw [hcontains]; simp [ht])]
        rw [hci]
      rw [hstep]
      have hinert : rest.foldl costStep (insertTs q.ts cp, addCost sess ci)
          = (insertTs q.ts cp, addCost sess ci) := by
        apply costFold_inert
        intro m' hm'
        by_cases hs : (extractCostInfo m').isSome = true
        · have heq := honly m' (List.mem_cons_of_mem q hm') hs
          subst heq
          exact Or.inr (Or.inr mem_insertTs_self)
        · exact Or.inr (Or.inl (Option.not_isSome_iff_eq_none.1 (by simpa using hs)))
      rw [hinert]
      exact ⟨rfl, mem_insertTs_self⟩
    · have hqnone : extractCostInfo q = none := by
        by_cases hs : (extractCostInfo q).isSome = true
        · exact absurd (honly q (List.mem_cons_self q rest) hs) hqm
        · exact Option.not_isSome_iff_eq_none.1 (by simpa using hs)
      have hstep : costStep (cp, sess) q = (cp, sess) := by
        unfold costStep
        split
        · rw [hqnone]
        · rfl
      rw [hstep]
      have hm2 : m ∈ rest := by
        rcases List.mem_cons.1 hm with rfl | h
        · exact absurd rfl hqm
        · exact h
      exact ih cp sess hm2 (fun m' h' hs => honly m' (List.mem_cons_of_mem q h') hs) hci ht hnp

/-- A snapshot iteration never flips the cancellation flag. -/
theorem processSnapshot_cancelled (dec : Nat → PermissionOutcome) (u : String)
    (ex : List Nat) (st : LoopState) (snap : Snapshot) :
    (processSnapshot dec u ex st snap).1.session.cancelled = st.session.cancelled := by
  unfold processSnapshot
  split
  · rfl
  · exact (costFold_session_inv snap.messages (st.costProcessed, st.session)).1

/-- A snapshot iteration never changes the stored session mode. -/
theorem processSnapshot_session_mode (dec : Nat → PermissionOutcome) (u : String)
    (ex : List Nat) (st : LoopState) (snap : Snapshot) :
    (processSnapshot dec u ex st snap).1.session.mode = st.session.mode := by
  unfold processSnapshot
  split
  · rfl
  · exact (costFold_session_inv snap.messages (st.costProcessed, st.session)).2.1

/-- One non-cancelled snapshot iteration over a snapshot containing a unique
unprocessed cost-bearing message folds it into the telemetry exactly once and
marks it processed. -/
theorem processSnapshot_cost_once {dec : Nat → PermissionOutcome} {u : String}
    {ex : List Nat} {st : LoopState} {snap : Snapshot} {m : ClineMessage}
    {ci : ClineCostInfo}
    (hc : st.session.cancelled = false)
    (hmem : m ∈ snap.messages)
    (honly : ∀ m' ∈ snap.messages, (extractCostInfo m').isSome = true → m' = m)
    (hci : extractCostInfo m = some ci) (ht : m.ts ≠ 0)
    (hnp : m.ts ∉ st.costProcessed) :
    (processSnapshot dec u ex st snap).1.session = addCost st.session ci
      ∧ m.ts ∈ (processSnapshot dec u ex st snap).1.costProcessed := by
  have e : processSnapshot dec u ex st snap = processSnapshotBody dec u ex st snap := by
    unfold processSnapshot
    rw [if_neg (by simp [hc])]
  rw [e]
  have h := costFold_once snap.messages st.costProcessed st.session hmem honly hci ht hnp
  exact ⟨h.1, h.2⟩

/-- A snapshot iteration over a snapshot whose cost-bearing messages are all
already processed leaves the telemetry unchanged and keeps the processed
mark. -/
theorem processSnapshot_cost_skip {dec : Nat → PermissionOutcome} {u : String}
    {ex : List Nat} {st : LoopState} {snap : Snapshot} {m : ClineMessage}
    (honly : ∀ m' ∈ snap.messages, (extractCostInfo m').isSome = true → m' = m)
    (hnp : m.ts ∈ st.costProcessed) :
    (processSnapshot dec u ex st snap).1.session = st.session
      ∧ m.ts ∈ (processSnapshot dec u ex st snap).1.costProcessed := by
  unfold processSnapshot
  split
  · exact ⟨rfl, hnp⟩
  · have hinert : snap.messages.foldl costStep (st.costProcessed, st.session)
        = (st.costProcessed, st.session) := by
      apply costFold_inert
      intro m' hm'
      by_cases hs : (extractCostInfo m').isSome = true
      · have heq := honly m' hm' hs
        subst heq
        exact Or.inr (Or.inr hnp)
      · exact Or.inr (Or.inl (Option.not_isSome_iff_eq_none.1 (by simpa using hs)))
    constructor
    · show (costPhase snap.messages st.costProcessed st.session).2 = st.session
      rw [show costPhase snap.messages st.costProcessed st.session
          = (st.costProcessed, st.session) from hinert]
    · show m.ts ∈ (costPhase snap.messages st.costProcessed st.session).1
      rw [show costPhase snap.messages st.costProcessed st.session
          = (st.costProcessed, st.session) from hinert]
      exact hnp

/-- Consuming further snapshots whose cost-bearing messages are all the
already-processed one leaves the telemetry unchanged. -/
theorem processSnapshots_cost_inert {dec : Nat → PermissionOutcome} {u : String}
    {ex : List Nat} {m : ClineMessage} :
    ∀ (snaps : List Snapshot) (st : LoopState),
      m.ts ∈ st.costProcessed →
      (∀ s ∈ snaps, ∀ m' ∈ s.messages, (extractCostInfo m').isSome = true → m' = m) →
      (processSnapshots dec u ex st snaps).1.session = st.session := by
  intro snaps
  induction snaps with
  | nil => intro st _ _; rfl
  | cons s rest ih =>
    intro st hnp honly
    obtain ⟨hsess, hnp'⟩ := @processSnapshot_cost_skip dec u ex st s m
      (honly s (List.mem_cons_self s rest)) hnp
    cases hres : (processSnapshot dec u ex st s).2.result with
    | goOn =>
      simp only [processSnapshots, hres]
      rw [ih _ hnp' (fun s' hs' => honly s' (List.mem_cons_of_mem s hs'))]
      exact hsess
    | stopCancel => simp only [processSnapshots, hres]; exact hsess
    | stopWait => simp only [processSnapshots, hres]; exact hsess
    | stopComplete => simp only [processSnapshots, hres]; exact hsess

/-- C2.  Cost exactness: a cost-bearing (api_req_started) message with a
defined cost field and a truthy timestamp, appearing in each of K consecutive
snapshots of a turn in which it is the only cost-bearing message and not yet
processed, contributes its cost, tokensIn, tokensOut, cacheWrites and
cacheReads (missing fields defaulting to zero) to the session telemetry
exactly once, regardless of K; a cost of exactly zero is still folded in. -/
theorem c2_cost_exactly_once (dec : Nat → PermissionOutcome) (u : String)
    (ex : List Nat) (st : LoopState) (snaps : List Snapshot) (m : ClineMessage)
    (ci : ClineCostInfo)
    (hci : extractCostInfo m = some ci)
    (ht : m.ts ≠ 0)
    (hnp : m.ts ∉ st.costProcessed)
    (hc : st.session.cancelled = false)
    (hne : snaps ≠ [])
    (hmem : ∀ s ∈ snaps, m ∈ s.messages)
    (honly : ∀ s ∈ snaps, ∀ m' ∈ s.messages, (extractCostInfo m').isSome = true → m' = m) :
    (processSnapshots dec u ex st snaps).1.session.totalCost
        = st.session.totalCost + ci.cost
    ∧ (processSnapshots dec u ex st snaps).1.session.totalTokensIn
        = st.session.totalTokensIn + ci.tokensIn
    ∧ (processSnapshots dec u ex st snaps).1.session.totalTokensOut
        = st.session.totalTokensOut + ci.tokensOut
    ∧ (processSnapshots dec u ex st snaps).1.session.totalCacheWrites
        = st.session.totalCacheWrites + ci.cacheWrites
    ∧ (processSnapshots dec u ex st snaps).1.session.totalCacheReads
        = st.session.totalCacheReads + ci.cacheReads := by
  have key : (processSnapshots dec u ex st snaps).1.session = addCost st.session ci := by
    cases snaps with
    | nil => exact absurd rfl hne
    | cons s rest =>
      obtain ⟨hsess, hmark⟩ := @processSnapshot_cost_once dec u ex st s m ci
        hc (hmem s (List.mem_cons_self s rest))
        (honly s (List.mem_cons_self s rest)) hci ht hnp
      cases hres : (processSnapshot dec u ex st s).2.result with
      | goOn =>
        simp only [processSnapshots, hres]
        rw [processSnapshots_cost_inert rest _ hmark
          (fun s' hs' => honly s' (List.mem_cons_of_mem s hs'))]
        exact hsess
      | stopCancel => simp only [processSnapshots, hres]; exact hsess
      | stopWait => simp only [processSnapshots, hres]; exact hsess
      | stopComplete => simp only [processSnapshots, hres]; exact hsess
  rw [key]
  simp [addCost]

/-- C2 witness: a zero-cost api_req_started message appearing in two
consecutive snapshots is folded in exactly once (tokensIn 3 added once, a cost
field of exactly 0 treated as present). -/
theorem c2_cost_exactly_once_witness :
    (processSnapshots decAllowW "" [] (freshLoopState sessW [])
        [c2snapW, c2snapW]).1.session.totalCost = sessW.totalCost + 0
    ∧ (processSnapshots decAllowW "" [] (freshLoopState sessW [])
        [c2snapW, c2snapW]).1.session.totalTokensIn = sessW.totalTokensIn + 3 := by
  have h := c2_cost_exactly_once decAllowW "" [] (freshLoopState sessW [])
    [c2snapW, c2snapW] c2msgW ⟨3, 0, 0, 0, 0⟩ rfl (by decide) (by decide) rfl
    (by decide) (by decide) (by decide)
  exact ⟨h.1, h.2.1⟩

/-- A complete ask of an approval-eligible kind at the end of the snapshot
needs approval. -/
theorem needsApproval_true {msgs : List ClineMessage} {lm : ClineMessage}
    (hlast : msgs.getLast? = some lm) (htype : lm.type = "ask")
    (hpart : lm.streaming = false)
    (hkind : lm.ask = "tool" ∨ lm.ask = "command"
      ∨ lm.ask = "browser_action_launch" ∨ lm.ask = "use_mcp_server") :
    needsApproval msgs = true := by
  rcases hkind with h | h | h | h <;>
    simp [needsApproval, hlast, htype, hpart, h]

/-- The permission request issued by the approval round-trip always targets
the last message, whatever the decision. -/
theorem handleApproval_perms {dec : Nat → PermissionOutcome}
    {msgs : List ClineMessage} {lm : ClineMessage}
    (hlast : msgs.getLast? = some lm) :
    (handleApprovalRequest dec msgs).2.2
      = [⟨natToString lm.ts, (parseToolInfo lm none).title,
          (parseToolInfo lm none).input⟩] := by
  simp only [handleApprovalRequest, hlast]
  split <;> rfl

/-- A snapshot iteration issues no permission request when the last message's
timestamp is already handled, and keeps it handled. -/
theorem processSnapshot_perm_skip {dec : Nat → PermissionOutcome} {u : String}
    {ex : List Nat} {st : LoopState} {snap : Snapshot} {lm : ClineMessage}
    (hlast : snap.messages.getLast? = some lm) (hmem : lm.ts ∈ st.handled) :
    (processSnapshot dec u ex st snap).2.permissions = []
      ∧ lm.ts ∈ (processSnapshot dec u ex st snap).1.handled := by
  unfold processSnapshot
  split
  · exact ⟨rfl, hmem⟩
  · obtain ⟨r, hr⟩ := @approvalPhase_shape_of_handled dec ex st.handled snap.messages lm hlast hmem
    constructor
    · show (approvalPhase dec ex st.handled snap.messages).permissions = []
      rw [hr]
    · show lm.ts ∈ (approvalPhase dec ex st.handled snap.messages).handled
      rw [hr]
      exact hmem

/-- The first non-cancelled snapshot iteration whose last message is a fresh,
complete, approval-eligible ask performs exactly one permission round-trip for
it, marks it handled and continues the loop. -/
theorem processSnapshot_perm_first {dec : Nat → PermissionOutcome} {u : String}
    {ex : List Nat} {st : LoopState} {snap : Snapshot} {lm : ClineMessage}
    (hc : st.session.cancelled = false)
    (hlast : snap.messages.getLast? = some lm)
    (htype : lm.type = "ask") (hpart : lm.streaming = false)
    (hkind : lm.ask = "tool" ∨ lm.ask = "command"
      ∨ lm.ask = "browser_action_launch" ∨ lm.ask = "use_mcp_server")
    (ht : lm.ts ≠ 0) (hex : ex.contains lm.ts = false)
    (hh : st.handled.contains lm.ts = false) :
    (processSnapshot dec u ex st snap).2.permissions
        = [⟨natToString lm.ts, (parseToolInfo lm none).title,
            (parseToolInfo lm none).input⟩]
      ∧ lm.ts ∈ (processSnapshot dec u ex st snap).1.handled
      ∧ (processSnapshot dec u ex st snap).2.result = .goOn := by
  have e : processSnapshot dec u ex st snap = processSnapshotBody dec u ex st snap := by
    unfold processSnapshot
    rw [if_neg (by simp [hc])]
  rw [e]
  have hA : ((lm.ts != 0 && !ex.contains lm.ts) && needsApproval snap.messages) = true := by
    rw [hex, needsApproval_true hlast htype hpart hkind]
    simp [ht]
  have hap : approvalPhase dec ex st.handled snap.messages
      = ⟨insertTs lm.ts st.handled, (handleApprovalRequest dec snap.messages).1,
         (handleApprovalRequest dec snap.messages).2.1,
         (handleApprovalRequest dec snap.messages).2.2, .goOn⟩ := by
    simp only [approvalPhase, hlast]
    rw [if_pos hA]
    rw [if_pos (by rw [hh]; simp [ht])]
  refine ⟨?_, ?_, ?_⟩
  · show (approvalPhase dec ex st.handled snap.messages).permissions = _
    rw [hap]
    exact handleApproval_perms hlast
  · show lm.ts ∈ (approvalPhase dec ex st.handled snap.messages).handled
    rw [hap]
    exact mem_insertTs_self
  · show (approvalPhase dec ex st.handled snap.messages).result = .goOn
    rw [hap]

/-- Once the timestamp is handled, consuming further snapshots that still end
with the same message issues no further permission request. -/
theorem processSnapshots_perm_inert {dec : Nat → PermissionOutcome} {u : String}
    {ex : List Nat} {lm : ClineMessage} :
    ∀ (snaps : List Snapshot) (st : LoopState),
      lm.ts ∈ st.handled →
      (∀ s ∈ snaps, s.messages.getLast? = some lm) →
      (processSnapshots dec u ex st snaps).2.permissions = [] := by
  intro snaps
  induction snaps with
  | nil => intro st _ _; rfl
  | cons s rest ih =>
    intro st hmem hlast
    obtain ⟨hp, hmem'⟩ := @processSnapshot_perm_skip dec u ex st s lm
      (hlast s (List.mem_cons_self s rest)) hmem
    cases hres : (processSnapshot dec u ex st s).2.result with
    | goOn =>
      simp only [processSnapshots, hres]
      rw [hp, ih _ hmem' (fun s' hs' => hlast s' (List.mem_cons_of_mem s hs'))]
      rfl
    | stopCancel => simp only [processSnapshots, hres]; exact hp
    | stopWait => simp only [processSnapshots, hres]; exact hp
    | stopComplete => simp only [processSnapshots, hres]; exact hp

/-- C4.  Approval single-fire: an approval-eligible complete message with a
fresh truthy timestamp that is the last message of one or more consecutive
snapshots triggers exactly one blocking permission round-trip; once its
timestamp is in the handled set, later snapshots where it is still the last
message never trigger a second request. -/
theorem c4_approval_single_fire (dec : Nat → PermissionOutcome) (u : String)
    (ex : List Nat) (st : LoopState) (snaps : List Snapshot) (lm : ClineMessage)
    (hc : st.session.cancelled = false)
    (hne : snaps ≠ [])
    (hlast : ∀ s ∈ snaps, s.messages.getLast? = some lm)
    (htype : lm.type = "ask") (hpart : lm.streaming = false)
    (hkind : lm.ask = "tool" ∨ lm.ask = "command"
      ∨ lm.ask = "browser_action_launch" ∨ lm.ask = "use_mcp_server")
    (ht : lm.ts ≠ 0) (hex : ex.contains lm.ts = false)
    (hh : st.handled.contains lm.ts = false) :
    (processSnapshots dec u ex st snaps).2.permissions
      = [⟨natToString lm.ts, (parseToolInfo lm none).title,
          (parseToolInfo lm none).input⟩] := by
  cases snaps with
  | nil => exact absurd rfl hne
  | cons s rest =>
    obtain ⟨hp1, hmem1, hres1⟩ := @processSnapshot_perm_first dec u ex st s lm
      hc (hlast s (List.mem_cons_self s rest)) htype hpart
      hkind ht hex hh
    simp only [processSnapshots, hres1]
    rw [hp1, processSnapshots_perm_inert rest _ hmem1
      (fun s' hs' => hlast s' (List.mem_cons_of_mem s hs'))]
    rfl

/-- C4 witness: the same approval-eligible ask as last message of three
consecutive snapshots yields exactly one permission request. -/
theorem c4_approval_single_fire_witness :
    (processSnapshots decAllowW "" [] (freshLoopState sessW [])
        [⟨[c4msgW], none, none⟩, ⟨[c4msgW], none, none⟩,
         ⟨[c4msgW], none, none⟩]).2.permissions
      = [⟨natToString c4msgW.ts, (parseToolInfo c4msgW none).title,
          (parseToolInfo c4msgW none).input⟩] :=
  c4_approval_single_fire decAllowW "" [] (freshLoopState sessW [])
    [⟨[c4msgW], none, none⟩, ⟨[c4msgW], none, none⟩, ⟨[c4msgW], none, none⟩]
    c4msgW rfl (by decide) (by decide) rfl rfl (Or.inl rfl) (by decide) rfl rfl

/-- C5.  Rejection handling: the approval round-trip sends a negative
response to the backend and emits a tool_call_update with status failed for
the originating message's stringified timestamp exactly when the outcome is
not an allow; an allow outcome sends an affirmative response and emits no
failed update. -/
theorem c5_rejection_failed_update (dec : Nat → PermissionOutcome)
    (msgs : List ClineMessage) (lm : ClineMessage)
    (hlast : msgs.getLast? = some lm) :
    (isAllowOutcome (dec lm.ts) = false →
      handleApprovalRequest dec msgs
        = ([createToolCallUpdate (natToString lm.ts) "failed"],
           [.noButtonClicked],
           [⟨natToString lm.ts, (parseToolInfo lm none).title,
             (parseToolInfo lm none).input⟩]))
    ∧ (isAllowOutcome (dec lm.ts) = true →
      handleApprovalRequest dec msgs
        = ([], [.yesButtonClicked],
           [⟨natToString lm.ts, (parseToolInfo lm none).title,
             (parseToolInfo lm none).input⟩])) := by
  constructor
  · intro hno
    unfold isAllowOutcome at hno
    simp only [handleApprovalRequest, hlast]
    rw [if_neg (by rw [hno]; simp)]
  · intro hyes
    unfold isAllowOutcome at hyes
    simp only [handleApprovalRequest, hlast]
    rw [if_pos hyes]

/-- C5 witness: a rejected command ask yields the failed update and a NO
response; an allowed one yields a YES response and no update. -/
theorem c5_rejection_failed_update_witness :
    handleApprovalRequest decRejectW [c5msgW]
        = ([createToolCallUpdate (natToString c5msgW.ts) "failed"],
           [.noButtonClicked],
           [⟨natToString c5msgW.ts, (parseToolInfo c5msgW none).title,
             (parseToolInfo c5msgW none).input⟩])
    ∧ handleApprovalRequest decAllowW [c5msgW]
        = ([], [.yesButtonClicked],
           [⟨natToString c5msgW.ts, (parseToolInfo c5msgW none).title,
             (parseToolInfo c5msgW none).input⟩]) :=
  ⟨(c5_rejection_failed_update decRejectW [c5msgW] c5msgW rfl).1 rfl,
   (c5_rejection_failed_update decAllowW [c5msgW] c5msgW rfl).2 rfl⟩

/-- Mode-change notifications filter to themselves. -/
theorem modeNotifications_filter (cm : Option String) (nm : String) :
    (modeNotifications cm nm).filter isModeUpdateB = modeNotifications cm nm := by
  cases cm with
  | none => rfl
  | some m =>
    simp only [modeNotifications]
    split <;> simp [isModeUpdateB]

/-- The task-progress phase never emits a mode update. -/
theorem taskProgress_no_mode (lt : Option Nat) (msgs : List ClineMessage) :
    ((taskProgressPhase lt msgs).2).filter isModeUpdateB = [] := by
  cases hfind : getLatestTaskProgress msgs with
  | none => simp only [taskProgressPhase, hfind]; rfl
  | some m =>
    simp only [taskProgressPhase, hfind]
    split
    · cases hplan : clineTaskProgressToAcpPlan m with
      | none => rfl
      | some n => simp [hplan, taskProgressPlan_not_mode hplan]
    · rfl

/-- The approval round-trip never emits a mode update. -/
theorem handleApproval_no_mode (dec : Nat → PermissionOutcome)
    (msgs : List ClineMessage) :
    ((handleApprovalRequest dec msgs).1).filter isModeUpdateB = [] := by
  simp only [handleApprovalRequest]
  repeat' split
  all_goals rfl

/-- The last-message checks never emit a mode update. -/
theorem approvalPhase_no_mode (dec : Nat → PermissionOutcome) (ex handled : List Nat)
    (msgs : List ClineMessage) :
    ((approvalPhase dec ex handled msgs).notifs).filter isModeUpdateB = [] := by
  simp only [approvalPhase]
  repeat' split
  all_goals first | rfl | exact handleApproval_no_mode dec msgs

/-- The mode updates emitted by one non-cancelled snapshot iteration are
exactly those of the mode-change check. -/
theorem processSnapshot_filter_mode (dec : Nat → PermissionOutcome) (u : String)
    (ex : List Nat) (st : LoopState) (snap : Snapshot)
    (hc : st.session.cancelled = false) :
    ((processSnapshot dec u ex st snap).2.notifs).filter isModeUpdateB
      = modeNotifications st.currentMode (extractModeOf snap) := by
  have e : processSnapshot dec u ex st snap = processSnapshotBody dec u ex st snap := by
    unfold processSnapshot
    rw [if_neg (by simp [hc])]
  rw [e]
  show (modeNotifications st.currentMode (extractModeOf snap)
      ++ (taskProgressPhase st.lastTaskProgressTs snap.messages).2
      ++ (processMessages u snap.root ⟨st.sent, st.inProg, []⟩ snap.messages).notifs
      ++ (approvalPhase dec ex st.handled snap.messages).notifs).filter isModeUpdateB = _
  rw [filter_mode_append, filter_mode_append, filter_mode_append]
  rw [modeNotifications_filter, taskProgress_no_mode, approvalPhase_no_mode]
  have hscan : ((processMessages u snap.root ⟨st.sent, st.inProg, []⟩
      snap.messages).notifs).filter isModeUpdateB = [] := by
    unfold processMessages
    rw [foldScan_filter_mode]
    rfl
  rw [hscan]
  simp

/-- C6 counterexample: a mode change from plan to act emits exactly one
current_mode_update notification, yet the session's stored mode field is left
at plan — the loop never writes Session.mode. -/
theorem c6_session_mode_not_updated :
    (processSnapshots decAllowW "" [] (freshLoopState sessW [])
        [c6snapPlanW, c6snapActW]).2.notifs = [.currentModeUpdate "act"]
    ∧ (processSnapshots decAllowW "" [] (freshLoopState sessW [])
        [c6snapPlanW, c6snapActW]).1.session.mode = "plan"
    ∧ extractModeOf c6snapActW = "act" :=
  ⟨rfl, rfl, rfl⟩

/-- C6 (amended).  Mode-change handling: a snapshot whose extracted mode
differs from the previously recorded mode emits exactly one mode-update and
updates the loop's last-known-mode tracker; the first observed mode is
recorded without emitting; a sequence of snapshots all reporting the same
mode after the first emits zero mode updates; in every case the session's
stored mode field is left unchanged by the loop. -/
theorem c6_mode_update_amended :
    (∀ (dec : Nat → PermissionOutcome) (u : String) (ex : List Nat)
      (st : LoopState) (snap : Snapshot),
      st.session.cancelled = false → st.currentMode = none →
      ((processSnapshot dec u ex st snap).2.notifs.filter isModeUpdateB = []
        ∧ (processSnapshot dec u ex st snap).1.currentMode = some (extractModeOf snap)
        ∧ (processSnapshot dec u ex st snap).1.session.mode = st.session.mode))
    ∧ (∀ (dec : Nat → PermissionOutcome) (u : String) (ex : List Nat)
      (st : LoopState) (snap : Snapshot) (mo : String),
      st.session.cancelled = false → st.currentMode = some mo →
      ((processSnapshot dec u ex st snap).2.notifs.filter isModeUpdateB
          = (if extractModeOf snap != mo
             then [.currentModeUpdate (extractModeOf snap)] else [])
        ∧ (processSnapshot dec u ex st snap).1.currentMode = some (extractModeOf snap)
        ∧ (processSnapshot dec u ex st snap).1.session.mode = st.session.mode))
    ∧ (∀ (dec : Nat → PermissionOutcome) (u : String) (ex : List Nat)
      (st : LoopState) (snaps : List Snapshot) (mo : String),
      st.currentMode = some mo → (∀ s ∈ snaps, extractModeOf s = mo) →
      ((processSnapshots dec u ex st snaps).2.notifs.filter isModeUpdateB = []
        ∧ (processSnapshots dec u ex st snaps).1.session.mode = st.session.mode)) := by
  have hbodyMode : ∀ (dec : Nat → PermissionOutcome) (u : String) (ex : List Nat)
      (st : LoopState) (snap : Snapshot), st.session.cancelled = false →
      (processSnapshot dec u ex st snap).1.currentMode = some (extractModeOf snap) := by
    intro dec u ex st snap hc
    unfold processSnapshot
    rw [if_neg (by simp [hc])]
    rfl
  refine ⟨?_, ?_, ?_⟩
  · intro dec u ex st snap hc hnone
    refine ⟨?_, hbodyMode dec u ex st snap hc, processSnapshot_session_mode dec u ex st snap⟩
    rw [processSnapshot_filter_mode dec u ex st snap hc, hnone]
    rfl
  · intro dec u ex st snap mo hc hmo
    refine ⟨?_, hbodyMode dec u ex st snap hc, processSnapshot_session_mode dec u ex st snap⟩
    rw [processSnapshot_filter_mode dec u ex st snap hc, hmo]
    rfl
  · intro dec u ex st snaps
    induction snaps generalizing st with
    | nil => intro mo _ _; exact ⟨rfl, rfl⟩
    | cons s rest ih =>
      intro mo hcm hsame
      by_cases hcT : st.session.cancelled = true
      · have hcancel : processSnapshot dec u ex st s = (st, ⟨[], [], [], .stopCancel⟩) := by
          unfold processSnapshot
          rw [if_pos hcT]
        simp only [processSnapshots, hcancel]
        exact ⟨rfl, trivial⟩
      · simp only [Bool.not_eq_true] at hcT
        have hfilter : ((processSnapshot dec u ex st s).2.notifs).filter isModeUpdateB = [] := by
          rw [processSnapshot_filter_mode dec u ex st s hcT, hcm,
            hsame s (List.mem_cons_self s rest)]
          simp [modeNotifications]
        have hcm' : (processSnapshot dec u ex st s).1.currentMode = some mo := by
          rw [hbodyMode dec u ex st s hcT, hsame s (List.mem_cons_self s rest)]
        have hmode' := processSnapshot_session_mode dec u ex st s
        cases hres : (processSnapshot dec u ex st s).2.result with
        | goOn =>
          obtain ⟨ih1, ih2⟩ := ih _ mo hcm' (fun s' hs' => hsame s' (List.mem_cons_of_mem s hs'))
          simp only [processSnapshots, hres]
          constructor
          · rw [filter_mode_append, hfilter, ih1]; rfl
          · rw [ih2, hmode']
        | stopCancel =>
          simp only [processSnapshots, hres]
          exact ⟨hfilter, hmode'⟩
        | stopWait =>
          simp only [processSnapshots, hres]
          exact ⟨hfilter, hmode'⟩
        | stopComplete =>
          simp only [processSnapshots, hres]
          exact ⟨hfilter, hmode'⟩

/-- C6 witness for the amended claim: a plan-to-act transition after a first
recorded plan mode emits exactly one mode update and leaves the session's
stored mode field unchanged. -/
theorem c6_mode_update_amended_witness :
    ((processSnapshot decAllowW "" []
        (processSnapshot decAllowW "" [] (freshLoopState sessW []) c6snapPlanW).1
        c6snapActW).2.notifs.filter isModeUpdateB
      = [.currentModeUpdate "act"])
    ∧ (processSnapshot decAllowW "" []
        (processSnapshot decAllowW "" [] (freshLoopState sessW []) c6snapPlanW).1
        c6snapActW).1.session.mode = "plan" := by
  have h := (c6_mode_update_amended).2.1 decAllowW "" []
    (processSnapshot decAllowW "" [] (freshLoopState sessW []) c6snapPlanW).1
    c6snapActW "plan" rfl rfl
  exact ⟨by rw [h.1]; rfl, h.2.2⟩

/-
  C7: echo suppression.
-/

/-- C7.  Echo suppression: a complete say/text message whose payload equals
the submitted user input is marked sent and skipped without emitting a
notification, and the two-message snapshot (index 0 the echoed "Hello",
index 1 the reply "Hi there") yields exactly one text-chunk notification,
with text "Hi there". -/
theorem c7_echo_suppression :
    (∀ (u : String) (root : Option String) (acc : MsgAcc) (i : Nat) (m : ClineMessage),
      m.streaming = false → lowerStr m.type = "say" → lowerStr m.say = "text" →
      m.text = some u → acc.sent.contains m.ts = false →
      stepMessage u root acc (i, m) = { acc with sent := insertIfTs m.ts acc.sent })
    ∧ (processSnapshot decAllowW "Hello" [] (freshLoopState sessW []) c7snapW).2.notifs
        = [.agentMessageChunk "Hi there"] := by
  constructor
  · intro u root acc i m hstream htype hsay htext hns
    have hmem : m.ts ∉ acc.sent := by simpa using hns
    simp [stepMessage, hstream, htype, hsay, htext, hmem]
  · rfl

/-- C7 witness: the echoed "Hello" message at index 0 is absorbed into the
sent set with no notification emitted. -/
theorem c7_echo_suppression_witness :
    stepMessage "Hello" none ⟨[], [], []⟩ (0, c7m1W)
      = ⟨insertIfTs c7m1W.ts [], [], []⟩ := by
  have h := c7_echo_suppression.1 "Hello" none ⟨[], [], []⟩ 0 c7m1W rfl rfl rfl rfl rfl
  exact h

/-
  C8: tool descriptor path and content resolution.
-/

/-- C8.  Path and content resolution of the tool-descriptor parser: the
secondary content field is used as the resolved path exactly when it starts
with a path separator (and is then not inline content); otherwise the primary
path is resolved against the workspace root, a relative path equal to the
root's base name resolving to the root itself and any other relative path
being joined under it; a present content field is taken as inline content
exactly when it does not start with a path separator. -/
theorem c8_path_content_resolution :
    (∀ (data : JVal) (root : Option String),
      contentIsAbsPath (strField data "content") = true →
      (parseToolInfoData data root).path = strField data "content"
        ∧ (parseToolInfoData data root).content = none)
    ∧ (∀ (data : JVal) (root : Option String),
      contentIsAbsPath (strField data "content") = false →
      (parseToolInfoData data root).path = resolveRelPath (strField data "path") root)
    ∧ (∀ (p w : String), p ≠ "" → w ≠ "" → sStartsWith p "/" = false →
      resolveRelPath (some p) (some w)
        = if p == jsBasename w then some w else some (w ++ "/" ++ p))
    ∧ (∀ (data : JVal) (root : Option String) (c : String),
      strField data "content" = some c →
      (parseToolInfoData data root).content
        = if sStartsWith c "/" = false then some c else none) := by
  refine ⟨?_, ?_, ?_, ?_⟩
  · intro data root h
    constructor
    · simp only [parseToolInfoData]
      rw [if_pos h]
    · cases hc : strField data "content" with
      | none => rw [hc] at h; exact absurd h (by simp [contentIsAbsPath])
      | some c =>
        rw [hc] at h
        simp only [contentIsAbsPath] at h
        simp only [parseToolInfoData, hc]
        simp [h]
  · intro data root h
    simp only [parseToolInfoData]
    rw [if_neg (by simp [h])]
  · intro p w hp hw hs
    have hcond : (p != "" && w != "" && !sStartsWith p "/") = true := by
      simp [hp, hw, hs]
    simp only [resolveRelPath]
    rw [if_pos hcond]
  · intro data root c hc
    simp only [parseToolInfoData, hc]
    by_cases hs : sStartsWith c "/" = true
    · simp [hs]
    · simp only [Bool.not_eq_true] at hs
      simp [hs]

/-- C8 witness: with workspace root /w, an absolute content field overrides
the path, a relative path is joined under the root, a relative path equal to
the root's base name resolves to the root, and a non-separator content field
is kept as inline content. -/
theorem c8_path_content_resolution_witness :
    (parseToolInfoData (.obj [("tool", .str "write_to_file"), ("path", .str "a.ts"),
        ("content", .str "/abs/f.ts")]) (some "/w")).path = some "/abs/f.ts"
    ∧ resolveRelPath (some "a.ts") (some "/w") = some ("/w" ++ "/" ++ "a.ts")
    ∧ resolveRelPath (some "w") (some "/w") = some "/w"
    ∧ (parseToolInfoData (.obj [("tool", .str "read_file"),
        ("content", .str "inline body")]) none).content = some "inline body" := by
  refine ⟨?_, ?_, ?_, ?_⟩
  · exact ((c8_path_content_resolution.1
      (.obj [("tool", .str "write_to_file"), ("path", .str "a.ts"),
        ("content", .str "/abs/f.ts")]) (some "/w") rfl).1).trans rfl
  · rw [c8_path_content_resolution.2.2.1 "a.ts" "/w" (by decide) (by decide) rfl]
    rfl
  · rw [c8_path_content_resolution.2.2.1 "w" "/w" (by decide) (by decide) rfl]
    rfl
  · rw [c8_path_content_resolution.2.2.2
      (.obj [("tool", .str "read_file"), ("content", .str "inline body")])
      none "inline body" rfl]
    rfl

/-
  C9: re-entrant prompt framing.
-/

/-- C9.  Re-entrant prompt framing: starting a new user turn on a session
whose task already exists resets the cancellation flag, seeds the
pre-existing timestamp set (and the sent set) from the latest snapshot, and
starts every other per-turn tracker empty, while leaving the session's
cumulative telemetry fields and its task-created flag unchanged. -/
theorem c9_reentrant_prompt_framing (sess : Session) (msgs : List ClineMessage)
    (h : sess.isTaskCreated = true) :
    (promptStart sess msgs).1 = existingTimestampsOf msgs
    ∧ (promptStart sess msgs).2.sent = existingTimestampsOf msgs
    ∧ (promptStart sess msgs).2.lastTaskProgressTs = none
    ∧ (promptStart sess msgs).2.currentMode = none
    ∧ (promptStart sess msgs).2.handled = []
    ∧ (promptStart sess msgs).2.inProg = []
    ∧ (promptStart sess msgs).2.costProcessed = []
    ∧ (promptStart sess msgs).2.session.totalCost = sess.totalCost
    ∧ (promptStart sess msgs).2.session.totalTokensIn = sess.totalTokensIn
    ∧ (promptStart sess msgs).2.session.totalTokensOut = sess.totalTokensOut
    ∧ (promptStart sess msgs).2.session.totalCacheWrites = sess.totalCacheWrites
    ∧ (promptStart sess msgs).2.session.totalCacheReads = sess.totalCacheReads
    ∧ (promptStart sess msgs).2.session.isTaskCreated = sess.isTaskCreated
    ∧ (promptStart sess msgs).2.session.cancelled = false := by
  simp [promptStart, freshLoopState, h]

/-- C9 witness: a turn start on the created-task session with one latest
message seeds both sets with its timestamp and keeps the telemetry. -/
theorem c9_reentrant_prompt_framing_witness :
    (promptStart sessW [c1msgW]).1 = [5]
    ∧ (promptStart sessW [c1msgW]).2.sent = [5]
    ∧ (promptStart sessW [c1msgW]).2.session.totalCost = 0
    ∧ (promptStart sessW [c1msgW]).2.session.isTaskCreated = true := by
  have h := c9_reentrant_prompt_framing sessW [c1msgW] rfl
  exact ⟨h.1.trans rfl, h.2.1.trans rfl, h.2.2.2.2.2.2.2.1.trans rfl,
    h.2.2.2.2.2.2.2.2.2.2.2.2.1.trans rfl⟩

/-
  C10: image chunks are dropped by the prompt conversion.
-/

theorem promptAccStep_images (acc : ClinePrompt) (b : ContentBlock) :
    (promptAccStep acc b).images = acc.images := by
  cases b with
  | textBlock t => rfl
  | resourceLink uri =>
    simp only [promptAccStep]
    split <;> rfl
  | resourceBlock uri tc => cases tc <;> rfl
  | imageBlock d => rfl

theorem promptFold_images (blocks : List ContentBlock) :
    ∀ acc : ClinePrompt, (blocks.foldl promptAccStep acc).images = acc.images := by
  induction blocks with
  | nil => intro acc; rfl
  | cons b bs ih =>
    intro acc
    rw [List.foldl_cons, ih, promptAccStep_images]

/-- C10.  The prompt conversion always returns an empty images list — image
chunks (including base64 data) are dropped without any effect — while text
chunks are concatenated, file:// resource links are added to the files list
with the scheme prefix stripped, and other resource links are inlined into
the text as bracketed URIs; meanwhile initialize() advertises image prompt
capability. -/
theorem c10_images_dropped :
    (∀ (blocks : List ContentBlock), (acpPromptToCline blocks).images = [])
    ∧ (∀ (d : String) (blocks : List ContentBlock),
        acpPromptToCline (blocks ++ [.imageBlock d]) = acpPromptToCline blocks)
    ∧ (∀ (t : String), acpPromptToCline [.textBlock t] = ⟨"" ++ t, [], []⟩)
    ∧ (∀ (uri : String), sStartsWith uri "file://" = true →
        acpPromptToCline [.resourceLink uri] = ⟨"", [], [sDrop uri 7]⟩)
    ∧ (∀ (uri : String), sStartsWith uri "file://" = false →
        acpPromptToCline [.resourceLink uri] = ⟨"" ++ "[" ++ uri ++ "]", [], []⟩)
    ∧ initializePromptCapabilities.image = true := by
  refine ⟨?_, ?_, ?_, ?_, ?_, rfl⟩
  · intro blocks
    unfold acpPromptToCline
    rw [promptFold_images]
  · intro d blocks
    unfold acpPromptToCline
    rw [List.foldl_append]
    rfl
  · intro t
    rfl
  · intro uri h
    simp only [acpPromptToCline, List.foldl_cons, List.foldl_nil, promptAccStep]
    simp [h]
  · intro uri h
    simp only [acpPromptToCline, List.foldl_cons, List.foldl_nil, promptAccStep]
    simp [h]

/-- C10 witness: a prompt containing an image chunk converts with an empty
images list, and a file resource link lands in files with file:// stripped. -/
theorem c10_images_dropped_witness :
    (acpPromptToCline [.textBlock "hi", .imageBlock "iVBORw0KGgo="]).images = []
    ∧ acpPromptToCline [.resourceLink "file:///w/a.ts"] = ⟨"", [], ["/w/a.ts"]⟩ := by
  constructor
  · exact c10_images_dropped.1 [.textBlock "hi", .imageBlock "iVBORw0KGgo="]
  · rw [c10_images_dropped.2.2.2.1 "file:///w/a.ts" rfl]
    rfl

/-
  C3: partial-to-complete tool lifecycle.
-/

/-- C3.  Partial-to-complete tool lifecycle: for every message with a truthy,
fresh timestamp T whose payload parses to a known tool descriptor (tool type
not unknown), appearing first as a partial say tool message and later as
complete, the loop emits exactly two tool_call notifications with toolCallId
String(T): first status in_progress with empty locations and content, then a
new completed tool_call (a toolCall, not a toolCallUpdate) carrying the
descriptor's resolved locations and content, after which T is removed from
the in-progress set; neither feed issues a permission request. -/
theorem c3_tool_lifecycle (dec : Nat → PermissionOutcome) (u : String)
    (ex : List Nat) (sess : Session) (root : Option String)
    (T : Nat) (tp tc : String) (dataP dataC : JVal)
    (hT : T ≠ 0) (hex : ex.contains T = false)
    (hc : sess.cancelled = false)
    (hpp : parseJson tp = some dataP)
    (hkP : (parseToolInfoData dataP root).type ≠ "unknown")
    (hpc : parseJson tc = some dataC)
    (hkC : (parseToolInfoData dataC root).type ≠ "unknown") :
    (processSnapshot dec u ex (freshLoopState sess ex)
        ⟨[⟨T, "say", "", "tool", some tp, "", true, none, none⟩], root, none⟩).2.notifs
      = [.toolCall (natToString T) "in_progress" (parseToolInfoData dataP root).title
          (mapToolKind (parseToolInfoData dataP root).type)
          (parseToolInfoData dataP root).input [] []]
    ∧ (processSnapshot dec u ex (freshLoopState sess ex)
        ⟨[⟨T, "say", "", "tool", some tp, "", true, none, none⟩], root, none⟩).1.inProg
      = [T]
    ∧ (processSnapshot dec u ex (freshLoopState sess ex)
        ⟨[⟨T, "say", "", "tool", some tp, "", true, none, none⟩], root, none⟩).2.permissions
      = []
    ∧ (processSnapshot dec u ex
        (processSnapshot dec u ex (freshLoopState sess ex)
          ⟨[⟨T, "say", "", "tool", some tp, "", true, none, none⟩], root, none⟩).1
        ⟨[⟨T, "say", "", "tool", some tc, "", false, none, none⟩], root, none⟩).2.notifs
      = [.toolCall (natToString T) "completed" (parseToolInfoData dataC root).title
          (mapToolKind (parseToolInfoData dataC root).type)
          (parseToolInfoData dataC root).input
          (buildToolCallContent (parseToolInfoData dataC root))
          (locationsOf (parseToolInfoData dataC root))]
    ∧ (processSnapshot dec u ex
        (processSnapshot dec u ex (freshLoopState sess ex)
          ⟨[⟨T, "say", "", "tool", some tp, "", true, none, none⟩], root, none⟩).1
        ⟨[⟨T, "say", "", "tool", some tc, "", false, none, none⟩], root, none⟩).1.inProg
      = []
    ∧ (processSnapshot dec u ex
        (processSnapshot dec u ex (freshLoopState sess ex)
          ⟨[⟨T, "say", "", "tool", some tp, "", true, none, none⟩], root, none⟩).1
        ⟨[⟨T, "say", "", "tool", some tc, "", false, none, none⟩], root, none⟩).2.permissions
      = [] := by
  have hTb : (T != 0) = true := by simpa using hT
  have htpne : (tp != "") = true := by
    simp only [bne_iff_ne, ne_eq]
    intro h
    rw [h, show parseJson "" = none from rfl] at hpp
    exact Option.noConfusion hpp
  have htcne : (tc != "") = true := by
    simp only [bne_iff_ne, ne_eq]
    intro h
    rw [h, show parseJson "" = none from rfl] at hpc
    exact Option.noConfusion hpc
  have hknP : ((parseToolInfoData dataP root).type == "unknown") = false := by
    simpa using hkP
  have hknC : ((parseToolInfoData dataC root).type == "unknown") = false := by
    simpa using hkC
  have hraw1 : rawPayloadText ⟨T, "say", "", "tool", some tp, "", true, none, none⟩
      = tp := by
    simp only [rawPayloadText]
    rw [if_pos htpne]
  have hpt1 : parseToolInfo ⟨T, "say", "", "tool", some tp, "", true, none, none⟩ root
      = parseToolInfoData dataP root := by
    simp only [parseToolInfo, hraw1, hpp]
  have hprog : clineSayToolToAcpToolCallInProgress
      ⟨T, "say", "", "tool", some tp, "", true, none, none⟩ root
      = some (.toolCall (natToString T) "in_progress" (parseToolInfoData dataP root).title
          (mapToolKind (parseToolInfoData dataP root).type)
          (parseToolInfoData dataP root).input [] []) := by
    simp only [clineSayToolToAcpToolCallInProgress, hpt1]
    simp [hknP, show (lowerStr "tool" != "tool") = false from rfl]
  have hraw2 : rawPayloadText ⟨T, "say", "", "tool", some tc, "", false, none, none⟩
      = tc := by
    simp only [rawPayloadText]
    rw [if_pos htcne]
  have hpt2 : parseToolInfo ⟨T, "say", "", "tool", some tc, "", false, none, none⟩ root
      = parseToolInfoData dataC root := by
    simp only [parseToolInfo, hraw2, hpc]
  have hcomp : clineSayToolToAcpToolCall
      ⟨T, "say", "", "tool", some tc, "", false, none, none⟩ root
      = some (.toolCall (natToString T) "completed" (parseToolInfoData dataC root).title
          (mapToolKind (parseToolInfoData dataC root).type)
          (parseToolInfoData dataC root).input
          (buildToolCallContent (parseToolInfoData dataC root))
          (locationsOf (parseToolInfoData dataC root))) := by
    simp only [clineSayToolToAcpToolCall, hpt2]
    simp [hknC]
  have hcostP : extractCostInfo ⟨T, "say", "", "tool", some tp, "", true, none, none⟩
      = none := rfl
  have hcostC : extractCostInfo ⟨T, "say", "", "tool", some tc, "", false, none, none⟩
      = none := rfl
  have hcs1 : costPhase [⟨T, "say", "", "tool", some tp, "", true, none, none⟩] [] sess
      = ([], sess) := by
    simp only [costPhase, List.foldl_cons, List.foldl_nil, costStep, hcostP, ite_self]
  have hcs2 : costPhase [⟨T, "say", "", "tool", some tc, "", false, none, none⟩] [] sess
      = ([], sess) := by
    simp only [costPhase, List.foldl_cons, List.foldl_nil, costStep, hcostC, ite_self]
  have htp1 : taskProgressPhase none
      [⟨T, "say", "", "tool", some tp, "", true, none, none⟩] = (none, []) := rfl
  have htp2 : taskProgressPhase none
      [⟨T, "say", "", "tool", some tc, "", false, none, none⟩] = (none, []) := rfl
  have hnilc : List.contains ([] : List Nat) T = false := rfl
  have hin : List.contains [T] T = true := by simp
  have herase : List.erase [T] T = [] := by simp
  have hmacc1 : processMessages u root ⟨ex, [], []⟩
      [⟨T, "say", "", "tool", some tp, "", true, none, none⟩]
      = ⟨ex, [T], [.toolCall (natToString T) "in_progress"
          (parseToolInfoData dataP root).title
          (mapToolKind (parseToolInfoData dataP root).type)
          (parseToolInfoData dataP root).input [] []]⟩ := by
    simp only [processMessages, withIdx, List.foldl_cons, List.foldl_nil]
    simp [stepMessage, hTb, hprog, insertTs, hnilc,
      show lowerStr "say" = "say" from rfl, show lowerStr "tool" = "tool" from rfl]
  have hmacc2 : processMessages u root ⟨ex, [T], []⟩
      [⟨T, "say", "", "tool", some tc, "", false, none, none⟩]
      = ⟨insertIfTs T ex, [], [.toolCall (natToString T) "completed"
          (parseToolInfoData dataC root).title
          (mapToolKind (parseToolInfoData dataC root).type)
          (parseToolInfoData dataC root).input
          (buildToolCallContent (parseToolInfoData dataC root))
          (locationsOf (parseToolInfoData dataC root))]⟩ := by
    have hnm : T ∉ ex := by simpa using hex
    simp only [processMessages, withIdx, List.foldl_cons, List.foldl_nil]
    simp [stepMessage, hTb, hex, hnm, hcomp, hin, herase,
      show lowerStr "say" = "say" from rfl, show lowerStr "tool" = "tool" from rfl]
  have hap1 : approvalPhase dec ex []
      [⟨T, "say", "", "tool", some tp, "", true, none, none⟩]
      = ⟨[], [], [], [], .goOn⟩ := by
    simp [approvalPhase,
      show ([⟨T, "say", "", "tool", some tp, "", true, none, none⟩] :
        List ClineMessage).getLast?
        = some ⟨T, "say", "", "tool", some tp, "", true, none, none⟩ from rfl,
      show needsApproval
        [(⟨T, "say", "", "tool", some tp, "", true, none, none⟩ : ClineMessage)]
        = false from rfl,
      show isWaitingForUserInput
        [(⟨T, "say", "", "tool", some tp, "", true, none, none⟩ : ClineMessage)]
        = false from rfl,
      show isTaskComplete
        [(⟨T, "say", "", "tool", some tp, "", true, none, none⟩ : ClineMessage)]
        = false from rfl]
  have hap2 : approvalPhase dec ex []
      [⟨T, "say", "", "tool", some tc, "", false, none, none⟩]
      = ⟨[], [], [], [], .goOn⟩ := by
    simp [approvalPhase,
      show ([⟨T, "say", "", "tool", some tc, "", false, none, none⟩] :
        List ClineMessage).getLast?
        = some ⟨T, "say", "", "tool", some tc, "", false, none, none⟩ from rfl,
      show needsApproval
        [(⟨T, "say", "", "tool", some tc, "", false, none, none⟩ : ClineMessage)]
        = false from rfl,
      show isWaitingForUserInput
        [(⟨T, "say", "", "tool", some tc, "", false, none, none⟩ : ClineMessage)]
        = false from rfl,
      show isTaskComplete
        [(⟨T, "say", "", "tool", some tc, "", false, none, none⟩ : ClineMessage)]
        = false from rfl]
  have e1 : processSnapshot dec u ex (freshLoopState sess ex)
      ⟨[⟨T, "say", "", "tool", some tp, "", true, none, none⟩], root, none⟩
      = processSnapshotBody dec u ex (freshLoopState sess ex)
        ⟨[⟨T, "say", "", "tool", some tp, "", true, none, none⟩], root, none⟩ := by
    unfold processSnapshot
    rw [if_neg (by simp [freshLoopState, hc])]
  have hbody1 : processSnapshotBody dec u ex (freshLoopState sess ex)
      ⟨[⟨T, "say", "", "tool", some tp, "", true, none, none⟩], root, none⟩
      = (⟨sess, ex, none, some "plan", [], [T], []⟩,
         ⟨[.toolCall (natToString T) "in_progress" (parseToolInfoData dataP root).title
            (mapToolKind (parseToolInfoData dataP root).type)
            (parseToolInfoData dataP root).input [] []], [], [], .goOn⟩) := by
    simp only [processSnapshotBody, freshLoopState]
    rw [show extractModeOf
        (⟨[⟨T, "say", "", "tool", some tp, "", true, none, none⟩], root, none⟩ :
          Snapshot) = "plan" from rfl]
    rw [hcs1, htp1, hmacc1, hap1]
    simp [modeNotifications]
  have hfeed1 : processSnapshot dec u ex (freshLoopState sess ex)
      ⟨[⟨T, "say", "", "tool", some tp, "", true, none, none⟩], root, none⟩
      = (⟨sess, ex, none, some "plan", [], [T], []⟩,
         ⟨[.toolCall (natToString T) "in_progress" (parseToolInfoData dataP root).title
            (mapToolKind (parseToolInfoData dataP root).type)
            (parseToolInfoData dataP root).input [] []], [], [], .goOn⟩) :=
    e1.trans hbody1
  have e2 : processSnapshot dec u ex
      (⟨sess, ex, none, some "plan", [], [T], []⟩ : LoopState)
      ⟨[⟨T, "say", "", "tool", some tc, "", false, none, none⟩], root, none⟩
      = processSnapshotBody dec u ex ⟨sess, ex, none, some "plan", [], [T], []⟩
        ⟨[⟨T, "say", "", "tool", some tc, "", false, none, none⟩], root, none⟩ := by
    unfold processSnapshot
    rw [if_neg (by simp [hc])]
  have hbody2 : processSnapshotBody dec u ex
      (⟨sess, ex, none, some "plan", [], [T], []⟩ : LoopState)
      ⟨[⟨T, "say", "", "tool", some tc, "", false, none, none⟩], root, none⟩
      = (⟨sess, insertIfTs T ex, none, some "plan", [], [], []⟩,
         ⟨[.toolCall (natToString T) "completed" (parseToolInfoData dataC root).title
            (mapToolKind (parseToolInfoData dataC root).type)
            (parseToolInfoData dataC root).input
            (buildToolCallContent (parseToolInfoData dataC root))
            (locationsOf (parseToolInfoData dataC root))],
          [], [], .goOn⟩) := by
    simp only [processSnapshotBody]
    rw [show extractModeOf
        (⟨[⟨T, "say", "", "tool", some tc, "", false, none, none⟩], root, none⟩ :
          Snapshot) = "plan" from rfl]
    rw [hcs2, htp2, hmacc2, hap2]
    simp [modeNotifications]
  have hfeed2 : processSnapshot dec u ex
      (processSnapshot dec u ex (freshLoopState sess ex)
        ⟨[⟨T, "say", "", "tool", some tp, "", true, none, none⟩], root, none⟩).1
      ⟨[⟨T, "say", "", "tool", some tc, "", false, none, none⟩], root, none⟩
      = (⟨sess, insertIfTs T ex, none, some "plan", [], [], []⟩,
         ⟨[.toolCall (natToString T) "completed" (parseToolInfoData dataC root).title
            (mapToolKind (parseToolInfoData dataC root).type)
            (parseToolInfoData dataC root).input
            (buildToolCallContent (parseToolInfoData dataC root))
            (locationsOf (parseToolInfoData dataC root))],
          [], [], .goOn⟩) := by
    rw [hfeed1]
    exact e2.trans hbody2
  refine ⟨?_, ?_, ?_, ?_, ?_, ?_⟩
  · rw [hfeed1]
  · rw [hfeed1]
  · rw [hfeed1]
  · rw [hfeed2]
  · rw [hfeed2]
  · rw [hfeed2]

/-- C3 witness: a write_to_file lifecycle at timestamp 7 under workspace root
/w — the partial feed emits one in_progress tool_call; the complete feed,
whose payload carries a relative path and non-empty inline content, emits one
new completed tool_call carrying the resolved location /w/a.ts and the inline
content; the in-progress set is cleared afterwards. -/
theorem c3_tool_lifecycle_witness :
    (processSnapshot decAllowW "" [] (freshLoopState sessW [])
        ⟨[⟨7, "say", "", "tool", some "\x7b\"tool\":\"write_to_file\"\x7d", "",
            true, none, none⟩], some "/w", none⟩).2.notifs
      = [.toolCall (natToString 7) "in_progress" "write_to_file" "edit"
          (.obj [("tool", .str "write_to_file")]) [] []]
    ∧ (processSnapshot decAllowW "" []
        (processSnapshot decAllowW "" [] (freshLoopState sessW [])
          ⟨[⟨7, "say", "", "tool", some "\x7b\"tool\":\"write_to_file\"\x7d", "",
              true, none, none⟩], some "/w", none⟩).1
        ⟨[⟨7, "say", "", "tool",
            some "\x7b\"tool\":\"write_to_file\",\"path\":\"a.ts\",\"content\":\"hello\"\x7d",
            "", false, none, none⟩], some "/w", none⟩).2.notifs
      = [.toolCall (natToString 7) "completed" ("write_to_file" ++ " " ++ "a.ts") "edit"
          (.obj [("tool", .str "write_to_file"), ("path", .str "a.ts"),
            ("content", .str "hello")]) [.textContent "hello"] [⟨"/w/a.ts", none⟩]]
    ∧ (processSnapshot decAllowW "" []
        (processSnapshot decAllowW "" [] (freshLoopState sessW [])
          ⟨[⟨7, "say", "", "tool", some "\x7b\"tool\":\"write_to_file\"\x7d", "",
              true, none, none⟩], some "/w", none⟩).1
        ⟨[⟨7, "say", "", "tool",
            some "\x7b\"tool\":\"write_to_file\",\"path\":\"a.ts\",\"content\":\"hello\"\x7d",
            "", false, none, none⟩], some "/w", none⟩).1.inProg = [] := by
  have h := c3_tool_lifecycle decAllowW "" [] sessW (some "/w") 7
    "\x7b\"tool\":\"write_to_file\"\x7d"
    "\x7b\"tool\":\"write_to_file\",\"path\":\"a.ts\",\"content\":\"hello\"\x7d"
    (.obj [("tool", .str "write_to_file")])
    (.obj [("tool", .str "write_to_file"), ("path", .str "a.ts"),
      ("content", .str "hello")])
    (by decide) rfl rfl rfl (by decide) rfl (by decide)
  exact ⟨h.1.trans (by rfl), h.2.2.2.1.trans (by rfl), h.2.2.2.2.1⟩

end ClineAcp
